import Mathlib

/-!
# Verification of the UNO game server (per-room game engine)

This file gives a shallow embedding, in Lean 4, of the per-room game engine of
the multiplayer UNO server (the root `server.js` of the repository, embodied by
the `GameRoom` class).  JavaScript arrays are modelled as Lean lists in the
same order (index 0 = list head, `push`/`pop` act on the tail), machine
integers as `Nat`/`Int`, and the value `undefined` — which can flow out of
`deck.pop()` on an empty deck — as `none : Option Card`.  A player's hand is a
`List (Option Card)` because the server can push `undefined` into a hand.
Operations return an `Outcome` that distinguishes a successful result, a
validation error (state unchanged) and a thrown `TypeError` (field access on
`undefined`; the partially mutated state is retained, as the room object
survives the exception).

Timer bookkeeping (`setTimeout` handles, durations, broadcasts) is not state
of the game model; the state effects of the `pauseAndResume` primitive are
split into `pauseStart` (performed synchronously by each move) and
`pauseResume` (performed when the animation timer expires).  The shuffle's
randomness is abstracted by an explicit `shuffle` function parameter; the
theorems that need it assume only that it preserves length, and witnesses
instantiate it with the identity permutation.
-/

/-- Card colors (`red`,`yellow`,`green`,`blue` natural; `black` for wilds;
`white` for the shield / sharePain variant cards). -/
inductive Color where
  | red | yellow | green | blue | black | white
deriving DecidableEq, Repr

/-- Card kinds (the `type` field of a card object). -/
inductive CType where
  | number | skip | reverse | drawTwo | wild | wildDrawFour | shield | sharePain
deriving DecidableEq, Repr

/-- A card: `{color, value, type, display}`. -/
structure Card where
  color : Color
  value : String
  ctype : CType
  display : String
deriving DecidableEq, Repr

/-- The room's rule configuration. -/
structure GameRules where
  jumpIn : Bool
  shieldCards : Bool
  sharePain : Bool
  startingHandSize : Nat
deriving DecidableEq, Repr

/-- A seated participant.  `hand` is a list of possibly-`undefined` entries:
the server pushes the raw result of `deck.pop()`, which is `undefined` when
the deck could not be refilled. -/
structure Player where
  id : String
  name : String
  isComputer : Bool
  hand : List (Option Card)
deriving DecidableEq, Repr

/-- One share-pain binding `{user, target}`; `sharePainBindings` is an object
keyed by the binder's id, modelled as an association list (binder, target). -/
abbrev Bindings := List (String × String)

/-- The per-round `gameState` object (timestamp fields omitted: wall-clock
times feed only the timer subsystem). -/
structure GameState where
  players : List Player
  deck : List Card
  discardPile : List Card
  currentPlayerIndex : Nat
  currentColorInPlay : Option Color
  gameDirection : Int
  isGameOver : Bool
  stackPenalty : Nat
  stackType : Option CType
  isStackActive : Bool
  showedUno : List String
  playerHasDrawnThisTurn : Bool
  skipNextPlayer : Bool
  gameRules : GameRules
  sharePainBindings : Bindings
  waitingForColorSelection : Bool
  isActionPaused : Bool
deriving DecidableEq, Repr

/-- Result object of a successful move (union of the fields the various
return sites populate; absent fields keep their default). -/
structure MoveResult where
  winner : Option String := none
  needColorSelection : Bool := false
  isWildDrawFour : Bool := false
  newUnoPlayer : Option String := none
  jumpInFlag : Bool := false
  drewPenalty : Bool := false
  shieldUsed : Bool := false
  sharePainUsed : Bool := false
  skippedPlayerId : Option String := none
  canPlayDrawnCard : Bool := false
  autoEndTurn : Bool := false
  timeoutFlag : Bool := false
  forceEndTurn : Bool := false
  drawnCard : Option Card := none
  drawnCards : List (Option Card × String) := []
  sharePainTriggered : Bool := false
  triggerPlayer : Option String := none
  penaltyCount : Nat := 0
  affectedPlayers : List String := []
  shieldUserId : Option String := none
  attackerId : Option String := none
  userId : Option String := none
  targetId : Option String := none
deriving DecidableEq, Repr

/-- Outcome of a move handler: success (result and next state), validation
error (message; state unchanged), or a thrown `TypeError` from accessing a
field of `undefined` (the state mutated so far is retained). -/
inductive Outcome where
  | ok (r : MoveResult) (s : GameState)
  | err (msg : String)
  | crash (s : GameState)
deriving DecidableEq, Repr

/-- The state after an outcome, given the state the move started from. -/
def Outcome.stateOf (o : Outcome) (gs : GameState) : GameState :=
  match o with
  | .ok _ s => s
  | .err _ => gs
  | .crash s => s

/-- Whether an outcome is a success. -/
def Outcome.isOk (o : Outcome) : Bool :=
  match o with
  | .ok _ _ => true
  | _ => false

/-- `find(p => p.id === pid)` over the seat list. -/
def findPlayer (gs : GameState) (pid : String) : Option Player :=
  gs.players.find? (fun p => p.id == pid)

/-- `findIndex(p => p.id === pid)`. -/
def findPlayerIdx (gs : GameState) (pid : String) : Option Nat :=
  gs.players.findIdx? (fun p => p.id == pid)

/-- In-place update of the seat at index `i` (no-op when out of range). -/
def modifyPlayerAt (gs : GameState) (i : Nat) (f : Player → Player) : GameState :=
  match gs.players.get? i with
  | some p => { gs with players := gs.players.set i (f p) }
  | none => gs

/-- Update the first list element satisfying `pred` (JavaScript `find` returns
a live reference which is then mutated in place). -/
def updateFirst (pred : Player → Bool) (f : Player → Player) : List Player → List Player
  | [] => []
  | p :: ps => if pred p then f p :: ps else p :: updateFirst pred f ps

/-- In-place update of the first seat matching `pid`. -/
def modifyPlayer (gs : GameState) (pid : String) (f : Player → Player) : GameState :=
  { gs with players := updateFirst (fun p => p.id == pid) f gs.players }

/-- `player.hand.push(c)` (the pushed entry may be `undefined`). -/
def pushHand (gs : GameState) (pid : String) (c : Option Card) : GameState :=
  modifyPlayer gs pid (fun p => { p with hand := p.hand ++ [c] })

/-- `getNextPlayerIndex`: add the direction, wrapping manually at both ends. -/
def getNextPlayerIndex (gs : GameState) : Nat :=
  let nextIndex : Int := (gs.currentPlayerIndex : Int) + gs.gameDirection
  if nextIndex ≥ (gs.players.length : Int) then 0
  else if nextIndex < 0 then gs.players.length - 1
  else nextIndex.toNat

/-- `getPreviousPlayerIndex`: subtract the direction, wrapping manually. -/
def getPreviousPlayerIndex (gs : GameState) : Nat :=
  let prevIndex : Int := (gs.currentPlayerIndex : Int) - gs.gameDirection
  if prevIndex ≥ (gs.players.length : Int) then 0
  else if prevIndex < 0 then gs.players.length - 1
  else prevIndex.toNat

/-- `isCardPlayable(card, topCard, handSize)` — the playability predicate of
the rule engine, a method reading the room's `gameState` and rules. -/
def isCardPlayable (gs : GameState) (card : Card) (topCard : Option Card)
    (handSize : Nat) : Bool :=
  match topCard with
  | none => true
  | some topCard =>
    if gs.isActionPaused || gs.waitingForColorSelection then false
    else if handSize == 1 && (card.ctype == .drawTwo || card.ctype == .wildDrawFour ||
        card.ctype == .skip || card.ctype == .reverse || card.ctype == .shield ||
        card.ctype == .sharePain) then false
    else if gs.isStackActive then
      if gs.stackType == some .drawTwo && card.ctype == .drawTwo then true
      else if gs.stackType == some .wildDrawFour && card.ctype == .wildDrawFour then true
      else if gs.gameRules.shieldCards && card.ctype == .shield then true
      else false
    else if card.color == .black || card.ctype == .shield then true
    else if gs.gameRules.sharePain && card.ctype == .sharePain then true
    else
      let effectiveColor := match gs.currentColorInPlay with
        | some c => c
        | none => topCard.color
      card.color == effectiveColor || card.value == topCard.value

/-- `applyCardEffect(card)`: skip marks skip-pending; reverse flips direction
(or degrades to skip with 2 players); drawTwo / wildDrawFour start or extend
the same-kind penalty stack. -/
def applyCardEffect (gs : GameState) (card : Card) : GameState :=
  match card.ctype with
  | .skip => { gs with skipNextPlayer := true }
  | .reverse =>
      if gs.players.length > 2 then { gs with gameDirection := gs.gameDirection * (-1) }
      else { gs with skipNextPlayer := true }
  | .drawTwo =>
      if gs.isStackActive && gs.stackType == some .drawTwo then
        { gs with stackPenalty := gs.stackPenalty + 2 }
      else
        { gs with isStackActive := true, stackType := some .drawTwo, stackPenalty := 2 }
  | .wildDrawFour =>
      if gs.isStackActive && gs.stackType == some .wildDrawFour then
        { gs with stackPenalty := gs.stackPenalty + 4 }
      else
        { gs with isStackActive := true, stackType := some .wildDrawFour, stackPenalty := 4 }
  | _ => gs

/-- The run of number cards `1..9` of one color, in push order. -/
def numberRun (c : Color) : List Card :=
  (List.range 9).map (fun v => ⟨c, toString (v + 1), .number, toString (v + 1)⟩)

/-- The `skip`, `reverse`, `drawTwo` cards of one color, in push order. -/
def actionRun (c : Color) : List Card :=
  [⟨c, "skip", .skip, "🚫"⟩, ⟨c, "reverse", .reverse, "🔄"⟩, ⟨c, "drawTwo", .drawTwo, "+2"⟩]

/-- All cards pushed for one color by `createDeck`: one `0`, then two copies
of (`1..9`, skip, reverse, drawTwo). -/
def colorBlock (c : Color) : List Card :=
  ⟨c, "0", .number, "0"⟩ :: (numberRun c ++ actionRun c ++ numberRun c ++ actionRun c)

/-- `createDeck()`: the base 108 cards, plus 4 shield cards when the shield
variant is enabled, plus 2 sharePain cards when the share-pain variant is. -/
def createDeck (rules : GameRules) : List Card :=
  (([Color.red, .yellow, .green, .blue].map colorBlock).flatten) ++
  (List.range 4).foldr (fun _ acc =>
      ⟨.black, "wild", .wild, "W"⟩ :: ⟨.black, "wildDrawFour", .wildDrawFour, "W+4"⟩ :: acc) [] ++
  (if rules.shieldCards then List.replicate 4 ⟨.white, "shield", .shield, "🛡️"⟩ else []) ++
  (if rules.sharePain then List.replicate 2 ⟨.white, "sharePain", .sharePain, "🔗"⟩ else [])

/-- `refillDeckFromDiscardPile()`: when the discard pile holds at most one
card this does nothing; otherwise all but the top discard card become the new
deck (shuffled) and the discard pile keeps only its top card. -/
def refillDeckFromDiscardPile (shuffle : List Card → List Card) (gs : GameState) : GameState :=
  if gs.discardPile.length ≤ 1 then gs
  else
    match gs.discardPile.getLast? with
    | none => gs   -- unreachable: the pile has at least two cards here
    | some topCard =>
        { gs with deck := shuffle gs.discardPile.dropLast, discardPile := [topCard] }

/-- `drawCardFromDeck()`: refill when empty, then `deck.pop()`.  The popped
value is `none` (JavaScript `undefined`) when the deck is still empty. -/
def drawCardFromDeck (shuffle : List Card → List Card) (gs : GameState) :
    Option Card × GameState :=
  let gs := if gs.deck.length == 0 then refillDeckFromDiscardPile shuffle gs else gs
  match gs.deck.getLast? with
  | none => (none, gs)
  | some c => (some c, { gs with deck := gs.deck.dropLast })

/-- The single-target draw loop of `applyPenaltyCards`: draw `n` cards, each
pushed onto the target's hand, also recording `(card, targetId)` pairs. -/
def drawCardsTo (shuffle : List Card → List Card) :
    Nat → GameState → String → GameState × List (Option Card × String)
  | 0, gs, _ => (gs, [])
  | n + 1, gs, tid =>
    let (c, gs1) := drawCardFromDeck shuffle gs
    let gs2 := pushHand gs1 tid c
    let (gs3, rest) := drawCardsTo shuffle n gs2 tid
    (gs3, (c, tid) :: rest)

/-- The symmetric draw loop of `applyPenaltyCards` when a share-pain binding
fires: per round, one card for the target and one for the partner. -/
def drawCardsPair (shuffle : List Card → List Card) :
    Nat → GameState → String → String → GameState × List (Option Card × String)
  | 0, gs, _, _ => (gs, [])
  | n + 1, gs, tid, pid =>
    let (c1, gs1) := drawCardFromDeck shuffle gs
    let (c2, gs2) := drawCardFromDeck shuffle gs1
    let gs3 := pushHand gs2 tid c1
    let gs4 := pushHand gs3 pid c2
    let (gs5, rest) := drawCardsPair shuffle n gs4 tid pid
    (gs5, (c1, tid) :: (c2, pid) :: rest)

/-- The binding lookup of `applyPenaltyCards`: first the target as binder
(`sharePainBindings[targetId]`), else scan for a binding whose `target` field
is the target id; returns the partner's seat id. -/
def findSharePainPartner (gs : GameState) (targetId : String) : Option String :=
  match gs.sharePainBindings.find? (fun b => b.1 == targetId) with
  | some b => some b.2
  | none => (gs.sharePainBindings.find? (fun b => b.2 == targetId)).map Prod.fst

/-- The fields of a full penalty-resolution result object. -/
structure PenaltyResult where
  sharePainTriggered : Bool
  triggerPlayer : String
  affectedPlayers : List String
  penaltyCount : Nat
  drawnCards : List (Option Card × String)
deriving DecidableEq, Repr

/-- `applyPenaltyCards(targetPlayerId, penaltyCount, reason)` — the shared
penalty-resolution routine.  Returns `none` for the degenerate early return
`{sharePainTriggered: false}` when the target seat does not exist (callers
that then read `.drawnCards.length` throw). -/
def applyPenaltyCards (shuffle : List Card → List Card) (gs : GameState)
    (targetPlayerId : String) (penaltyCount : Nat) (reason : String) :
    Option PenaltyResult × GameState :=
  match findPlayer gs targetPlayerId with
  | none => (none, gs)
  | some _ =>
    if gs.gameRules.sharePain && (reason == "stack" || reason == "shield") then
      match findSharePainPartner gs targetPlayerId with
      | some partnerId =>
        match findPlayer gs partnerId with
        | some partner =>
          let (gs', cards) := drawCardsPair shuffle penaltyCount gs targetPlayerId partnerId
          (some ⟨true, targetPlayerId, [targetPlayerId, partner.id], penaltyCount, cards⟩, gs')
        | none =>
          -- a binding names a partner that is not seated: single-target draw
          let (gs', cards) := drawCardsTo shuffle penaltyCount gs targetPlayerId
          (some ⟨false, targetPlayerId, [targetPlayerId], penaltyCount, cards⟩, gs')
      | none =>
        let (gs', cards) := drawCardsTo shuffle penaltyCount gs targetPlayerId
        (some ⟨false, targetPlayerId, [targetPlayerId], penaltyCount, cards⟩, gs')
    else
      let (gs', cards) := drawCardsTo shuffle penaltyCount gs targetPlayerId
      (some ⟨false, targetPlayerId, [targetPlayerId], penaltyCount, cards⟩, gs')

/-- The synchronous half of `pauseAndResume`: raise the animation lock. -/
def pauseStart (gs : GameState) : GameState :=
  { gs with isActionPaused := true }

/-- `nextTurn()`: prune UNO records of seats no longer at one card, advance
the index (twice when a skip is pending), clear the has-drawn flag.  Timer
arming and turn-start timestamps are timing concerns outside the model. -/
def nextTurn (gs : GameState) : GameState :=
  let gs := { gs with showedUno := gs.showedUno.filter (fun pid =>
      match findPlayer gs pid with
      | some p => p.hand.length == 1
      | none => false) }
  let gs := { gs with currentPlayerIndex := getNextPlayerIndex gs }
  let gs := if gs.skipNextPlayer then
      { gs with currentPlayerIndex := getNextPlayerIndex gs, skipNextPlayer := false }
    else gs
  { gs with playerHasDrawnThisTurn := false }

/-- The deferred half of `pauseAndResume` (the animation timer expiring):
release the lock and, unless a color choice is pending, advance the turn. -/
def pauseResume (gs : GameState) : GameState :=
  let gs := { gs with isActionPaused := false }
  if gs.waitingForColorSelection then gs else nextTurn gs

/-- The broadcast result object of a timeout, spread from a penalty result. -/
def timeoutResult (pr : PenaltyResult) : MoveResult :=
  { timeoutFlag := true, forceEndTurn := true,
    sharePainTriggered := pr.sharePainTriggered, triggerPlayer := some pr.triggerPlayer,
    affectedPlayers := pr.affectedPlayers, penaltyCount := pr.penaltyCount,
    drawnCards := pr.drawnCards }

/-- `handleTurnTimeout()`: when the current seat has not drawn this turn,
resolve the active stack onto it (reason `timeout`) or draw one card (reason
`timeout`); clear any pending color choice; pause for the animation. -/
def handleTurnTimeout (shuffle : List Card → List Card) (gs : GameState) : Outcome :=
  match gs.players.get? gs.currentPlayerIndex with
  | none => .crash gs   -- `currentPlayer.id` on an undefined seat throws
  | some currentPlayer =>
    if !gs.playerHasDrawnThisTurn then
      if gs.isStackActive then
        let (prOpt, g1) := applyPenaltyCards shuffle gs currentPlayer.id gs.stackPenalty "timeout"
        let g2 := { g1 with
          isStackActive := false, stackPenalty := 0, stackType := none,
          waitingForColorSelection := false }
        match prOpt with
        | none => .crash g2   -- `.drawnCards.length` on the degenerate result throws
        | some pr => .ok (timeoutResult pr) (pauseStart g2)
      else
        let (prOpt, g1) := applyPenaltyCards shuffle gs currentPlayer.id 1 "timeout"
        let g2 := { g1 with waitingForColorSelection := false }
        match prOpt with
        | none => .crash g2
        | some pr => .ok (timeoutResult pr) (pauseStart g2)
    else
      .ok { timeoutFlag := true, forceEndTurn := true, drawnCards := [] }
        (pauseStart { gs with waitingForColorSelection := false })

/-- The broadcast result object of a resolved penalty (spread into the
caller's result). -/
def penaltyFields (pr : PenaltyResult) : MoveResult :=
  { sharePainTriggered := pr.sharePainTriggered, triggerPlayer := some pr.triggerPlayer,
    affectedPlayers := pr.affectedPlayers, penaltyCount := pr.penaltyCount,
    drawnCards := pr.drawnCards }

/-- The shield-versus-active-stack branch of `playCard`: redirect the whole
accumulated penalty onto the previous seat, move the shield to the discard
pile and clear the stack. -/
def playCardShield (shuffle : List Card → List Card) (gs : GameState)
    (playerId : String) (cardIndex : Nat) (card : Card) : Outcome :=
  match gs.players.get? (getPreviousPlayerIndex gs) with
  | none => .crash gs   -- `previousPlayer.id` on an empty seat list throws
  | some previousPlayer =>
    let (prOpt, gs1) :=
      applyPenaltyCards shuffle gs previousPlayer.id gs.stackPenalty "shield"
    let gs2 := modifyPlayer gs1 playerId
      (fun p => { p with hand := p.hand.eraseIdx cardIndex })
    let gs3 := { gs2 with
      discardPile := gs2.discardPile ++ [card],
      isStackActive := false, stackPenalty := 0, stackType := none }
    match prOpt with
    | none => .crash gs3   -- `.drawnCards.length` on the degenerate result throws
    | some pr =>
      .ok { penaltyFields pr with
              shieldUsed := true, shieldUserId := some playerId,
              attackerId := some previousPlayer.id }
         (pauseStart gs3)

/-- The ordinary branch of `playCard`: move the card to the discard pile,
update the active color, check UNO and win, apply effects; black cards defer
to color selection instead of advancing. -/
def playCardNormal (gs : GameState) (player : Player) (playerId : String)
    (cardIndex : Nat) (card : Card) : Outcome :=
  let gs1 := modifyPlayer gs playerId
    (fun p => { p with hand := p.hand.eraseIdx cardIndex })
  let gs2 := { gs1 with discardPile := gs1.discardPile ++ [card] }
  let gs3 :=
    if card.ctype != .shield && card.ctype != .sharePain then
      { gs2 with currentColorInPlay :=
          if card.color == .black then none else some card.color }
    else gs2
  let newHandLen := player.hand.length - 1
  let newUno :=
    if newHandLen == 1 && !(gs3.showedUno.contains player.id) then some player.id
    else none
  let gs4 :=
    match newUno with
    | some pid => { gs3 with showedUno := gs3.showedUno ++ [pid] }
    | none => gs3
  if card.color == .black then
    .ok { needColorSelection := true, isWildDrawFour := card.ctype == .wildDrawFour,
          newUnoPlayer := newUno }
       (pauseStart { gs4 with waitingForColorSelection := true })
  else
    let gs5 := applyCardEffect gs4 card
    let skippedPlayerId :=
      if card.ctype == .skip || (card.ctype == .reverse && gs5.players.length == 2) then
        -- the seat list is non-empty here (the acting seat was found),
        -- so the wrapped index lookup always succeeds
        (gs5.players.get? (getNextPlayerIndex gs5)).map (fun p => p.id)
      else none
    if newHandLen == 0 then
      .ok { winner := some player.name } { gs5 with isGameOver := true }
    else
      .ok { newUnoPlayer := newUno, skippedPlayerId := skippedPlayerId }
         (pauseStart gs5)

/-- `playCard(playerId, cardIndex)`: validate playability; a shield against an
active stack redirects the whole penalty onto the previous seat; otherwise
move the card to the discard pile, update the active color, check UNO and win,
apply effects (black cards defer to color selection), and pause. -/
def playCard (shuffle : List Card → List Card) (gs : GameState)
    (playerId : String) (cardIndex : Nat) : Outcome :=
  match findPlayer gs playerId with
  | none => .err "無效的卡片"
  | some player =>
    if cardIndex ≥ player.hand.length then .err "無效的卡片"
    else
      let topCard := gs.discardPile.getLast?
      match player.hand.get? cardIndex with
      | none => .err "無效的卡片"   -- unreachable: the index is in bounds
      | some none =>
        -- the selected entry is `undefined`: isCardPlayable reaches `card.type`
        -- (a TypeError) unless it returns before touching the card
        (match topCard with
         | none => .crash gs   -- playability is `true`; `card.type === 'shield'` then throws
         | some _ =>
           if gs.isActionPaused || gs.waitingForColorSelection then .err "這張牌不能出"
           else .crash gs)
      | some (some card) =>
        if !(isCardPlayable gs card topCard player.hand.length) then .err "這張牌不能出"
        else if card.ctype == .shield && gs.isStackActive then
          playCardShield shuffle gs playerId cardIndex card
        else
          playCardNormal gs player playerId cardIndex card

/-- `drawCard(playerId)`.  `timerExpired` stands for the wall-clock test
`remainingTime ≤ 0` on the re-armed turn timer: when the drawn card is
playable and the budget is spent, `handleTurnTimeout()` runs synchronously. -/
def drawCard (shuffle : List Card → List Card) (gs : GameState)
    (playerId : String) (timerExpired : Bool) : Outcome :=
  match findPlayer gs playerId with
  | none => .err "玩家不存在"
  | some player =>
    if gs.playerHasDrawnThisTurn && !gs.isStackActive then .err "本回合已經抽過牌"
    else if gs.isStackActive then
      let (prOpt, gs1) := applyPenaltyCards shuffle gs playerId gs.stackPenalty "stack"
      let gs2 := { gs1 with
        isStackActive := false, stackPenalty := 0, stackType := none,
        playerHasDrawnThisTurn := true }
      match prOpt with
      | none => .crash gs2   -- `.drawnCards.length` on the degenerate result throws
      | some pr => .ok { penaltyFields pr with drewPenalty := true } (pauseStart gs2)
    else
      let (c, gs1) := drawCardFromDeck shuffle gs
      let gs2 := { pushHand gs1 playerId c with playerHasDrawnThisTurn := true }
      let topCard := gs2.discardPile.getLast?
      match c with
      | none =>
        -- the drawn "card" is `undefined`; `isCardPlayable(undefined, ...)`
        -- either returns before touching it or throws a TypeError
        (match topCard with
         | none =>
           -- no top card: playability is `true`; the timer re-arm path runs
           if timerExpired then
             match handleTurnTimeout shuffle gs2 with
             | .ok _ s => .ok { timeoutFlag := true } s
             | .err e => .err e
             | .crash s => .crash s
           else
             .ok { drawnCard := none, drawnCards := [(none, playerId)],
                   canPlayDrawnCard := true } gs2
         | some _ =>
           if gs2.isActionPaused || gs2.waitingForColorSelection then
             -- playability is `false` without touching the card: auto end turn
             .ok { drawnCard := none, drawnCards := [(none, playerId)],
                   canPlayDrawnCard := false, autoEndTurn := true } (pauseStart gs2)
           else .crash gs2)   -- a `card.type` / `card.color` access throws
      | some card =>
        if isCardPlayable gs2 card topCard (player.hand.length + 1) then
          if timerExpired then
            match handleTurnTimeout shuffle gs2 with
            | .ok _ s => .ok { timeoutFlag := true } s
            | .err e => .err e
            | .crash s => .crash s
          else
            -- the turn timer is re-armed with the remaining budget; no pause
            .ok { drawnCard := some card, drawnCards := [(some card, playerId)],
                  canPlayDrawnCard := true } gs2
        else
          .ok { drawnCard := some card, drawnCards := [(some card, playerId)],
                canPlayDrawnCard := false, autoEndTurn := true } (pauseStart gs2)

/-- `selectColor(playerId, color)`: validate the color, require the current
seat, then set the active color and (re-)apply the discard top's effect.
Note: `waitingForColorSelection` is *not* checked. -/
def selectColor (gs : GameState) (playerId : String) (color : Color) : Outcome :=
  if !(color == .red || color == .yellow || color == .green || color == .blue) then
    .err "無效的顏色"
  else
    match gs.players.get? gs.currentPlayerIndex with
    | none => .crash gs   -- `currentPlayer.id` on an undefined seat throws
    | some currentPlayer =>
      if playerId != currentPlayer.id then .err "不是你的回合來選擇顏色"
      else
        let gs1 := { gs with
          waitingForColorSelection := false, currentColorInPlay := some color }
        match gs1.discardPile.getLast? with
        | none => .crash gs1   -- `applyCardEffect(undefined)` reads `card.type`
        | some topCard => .ok {} (pauseStart (applyCardEffect gs1 topCard))

/-- `canJumpIn(playerId, cardIndex)`: the jump-in guard — variant enabled, no
animation lock, window open, a seated player, an in-range index and an exact
triple match (color, value, kind) with the discard top.  `window` stands for
`this.jumpInWindow !== null`.  Returns `none` when the triple comparison
touches an `undefined` hand entry (a TypeError). -/
def canJumpIn (gs : GameState) (window : Bool) (playerId : String)
    (cardIndex : Nat) : Option Bool :=
  if !gs.gameRules.jumpIn || gs.isActionPaused || !window then some false
  else
    match findPlayer gs playerId with
    | none => some false
    | some player =>
      if cardIndex ≥ player.hand.length then some false
      else
        match player.hand.get? cardIndex, gs.discardPile.getLast? with
        | _, none => some false
        | some (some card), some top =>
          some (card.color == top.color && card.value == top.value && card.ctype == top.ctype)
        | _, some _ => none

/-- `jumpIn(playerId, cardIndex)`: guarded only by `canJumpIn`; seizes the
turn, moves the card, checks UNO and win, then follows the black-card /
effect logic of `playCard`. -/
def jumpIn (gs : GameState) (window : Bool) (playerId : String) (cardIndex : Nat) : Outcome :=
  match canJumpIn gs window playerId cardIndex with
  | none => .crash gs
  | some false => .err "無法搶牌"
  | some true =>
    match findPlayer gs playerId, findPlayerIdx gs playerId with
    | some player, some playerIndex =>
      match player.hand.get? cardIndex with
      | some (some card) =>
        let gs1 := modifyPlayer gs playerId
          (fun p => { p with hand := p.hand.eraseIdx cardIndex })
        let gs2 := { gs1 with
          discardPile := gs1.discardPile ++ [card], currentPlayerIndex := playerIndex }
        let newHandLen := player.hand.length - 1
        let newUno :=
          if newHandLen == 1 && !(gs2.showedUno.contains player.id) then some player.id
          else none
        let gs3 :=
          match newUno with
          | some pid => { gs2 with showedUno := gs2.showedUno ++ [pid] }
          | none => gs2
        if newHandLen == 0 then
          .ok { winner := some player.name, jumpInFlag := true } { gs3 with isGameOver := true }
        else if card.color == .black then
          .ok { jumpInFlag := true, needColorSelection := true,
                isWildDrawFour := card.ctype == .wildDrawFour, newUnoPlayer := newUno }
             { gs3 with
               waitingForColorSelection := true, currentColorInPlay := none,
               playerHasDrawnThisTurn := false }
        else
          let gs4 := applyCardEffect { gs3 with currentColorInPlay := some card.color } card
          .ok { jumpInFlag := true, newUnoPlayer := newUno } (pauseStart gs4)
      | _ => .crash gs        -- unreachable: `canJumpIn` returned true
    | _, _ => .err "無法搶牌"  -- unreachable: `canJumpIn` returned true

/-- `playSharePainCard(playerId, cardIndex, targetPlayerId)`: variant-gated by
playability; replaces the room-wide binding with (player, chosen target). -/
def playSharePainCard (gs : GameState) (playerId : String) (cardIndex : Nat)
    (targetPlayerId : String) : Outcome :=
  match findPlayer gs playerId, findPlayer gs targetPlayerId with
  | some player, some _ =>
    if cardIndex ≥ player.hand.length then .err "無效的卡片"
    else
      match player.hand.get? cardIndex with
      | none => .err "無效的卡片"   -- unreachable: the index is in bounds
      | some none => .crash gs      -- `card.type` on an undefined entry throws
      | some (some card) =>
        if card.ctype != .sharePain then .err "不是同甘共苦牌"
        else if !(isCardPlayable gs card gs.discardPile.getLast? player.hand.length) then
          .err "這張牌不能出"
        else
          let gs1 := modifyPlayer gs playerId
            (fun p => { p with hand := p.hand.eraseIdx cardIndex })
          let gs2 := { gs1 with
            discardPile := gs1.discardPile ++ [card],
            sharePainBindings := [(playerId, targetPlayerId)] }
          let newHandLen := player.hand.length - 1
          let newUno :=
            if newHandLen == 1 && !(gs2.showedUno.contains player.id) then some player.id
            else none
          let gs3 :=
            match newUno with
            | some pid => { gs2 with showedUno := gs2.showedUno ++ [pid] }
            | none => gs2
          if newHandLen == 0 then
            .ok { winner := some player.name } { gs3 with isGameOver := true }
          else
            .ok { sharePainUsed := true, userId := some playerId,
                  targetId := some targetPlayerId, newUnoPlayer := newUno }
               (pauseStart gs3)
  | _, _ => .err "玩家不存在"

/-- The per-seat inner loop of `dealCards`: draw `n` cards onto seat `i`. -/
def dealN (shuffle : List Card → List Card) : Nat → GameState → Nat → GameState
  | 0, gs, _ => gs
  | n + 1, gs, i =>
    let (c, gs1) := drawCardFromDeck shuffle gs
    dealN shuffle n (modifyPlayerAt gs1 i (fun p => { p with hand := p.hand ++ [c] })) i

/-- `dealCards()`: reset every hand, then deal `startingHandSize` cards to
each seat in order. -/
def dealCards (shuffle : List Card → List Card) (gs : GameState) : GameState :=
  (List.range gs.players.length).foldl
    (fun g i =>
      dealN shuffle g.gameRules.startingHandSize
        (modifyPlayerAt g i (fun p => { p with hand := [] })) i)
    gs

/-- The forced-number opening loop of `initializeGame`: draw; a non-number
card is unshifted into the deck, which is reshuffled, and a new card drawn.
`none` models both exhaustion of the fuel and the `TypeError` thrown when the
deck runs dry (`firstCard.type` on `undefined`): initialization fails. -/
def firstCardLoop (shuffle : List Card → List Card) :
    Nat → GameState → Option (Card × GameState)
  | 0, _ => none
  | fuel + 1, gs =>
    let (c, gs1) := drawCardFromDeck shuffle gs
    match c with
    | none => none
    | some card =>
      if card.ctype == .number then some (card, gs1)
      else firstCardLoop shuffle fuel { gs1 with deck := shuffle (card :: gs1.deck) }

/-- `initializeGame()`: fill the roster to four seats with computer players,
build and shuffle the deck, deal, and flip a forced number card. -/
def initializeGame (shuffle : List Card → List Card) (fuel : Nat) (rules : GameRules)
    (roomPlayers : List Player) : Option GameState :=
  let computers := (List.range (4 - roomPlayers.length)).map (fun i =>
    { id := "computer_" ++ toString (i + 1), name := "電腦 " ++ toString (i + 1),
      isComputer := true, hand := [] : Player })
  let gs0 : GameState := {
    players := roomPlayers ++ computers, deck := [], discardPile := [],
    currentPlayerIndex := 0, currentColorInPlay := none, gameDirection := 1,
    isGameOver := false, stackPenalty := 0, stackType := none, isStackActive := false,
    showedUno := [], playerHasDrawnThisTurn := false, skipNextPlayer := false,
    gameRules := rules, sharePainBindings := [], waitingForColorSelection := false,
    isActionPaused := false }
  let gs1 := { gs0 with deck := shuffle (createDeck rules) }
  let gs2 := dealCards shuffle gs1
  match firstCardLoop shuffle fuel gs2 with
  | none => none
  | some (card, gs3) =>
    some { gs3 with
      discardPile := gs3.discardPile ++ [card], currentColorInPlay := some card.color }

/-- One observable state transition of an active room: any of the move
handlers (with arbitrary request arguments), a turn timeout firing, or the
animation-lock timer expiring (`pauseResume`).  Failed validations leave the
state unchanged; a thrown TypeError leaves the partially mutated state. -/
inductive Step (shuffle : List Card → List Card) : GameState → GameState → Prop where
  | playCard (gs : GameState) (pid : String) (ci : Nat) :
      Step shuffle gs ((playCard shuffle gs pid ci).stateOf gs)
  | drawCard (gs : GameState) (pid : String) (te : Bool) :
      Step shuffle gs ((drawCard shuffle gs pid te).stateOf gs)
  | jumpIn (gs : GameState) (w : Bool) (pid : String) (ci : Nat) :
      Step shuffle gs ((jumpIn gs w pid ci).stateOf gs)
  | selectColor (gs : GameState) (pid : String) (c : Color) :
      Step shuffle gs ((selectColor gs pid c).stateOf gs)
  | playSharePain (gs : GameState) (pid : String) (ci : Nat) (tid : String) :
      Step shuffle gs ((playSharePainCard gs pid ci tid).stateOf gs)
  | timeout (gs : GameState) :
      Step shuffle gs ((handleTurnTimeout shuffle gs).stateOf gs)
  | animationDone (gs : GameState) :
      Step shuffle gs (pauseResume gs)

/-- States reachable in some room: a freshly initialized round followed by
any sequence of observable transitions. -/
inductive Reachable (shuffle : List Card → List Card) (rules : GameRules) :
    GameState → Prop where
  | base (fuel : Nat) (roomPlayers : List Player) (gs : GameState) :
      initializeGame shuffle fuel rules roomPlayers = some gs →
      Reachable shuffle rules gs
  | step (gs gs' : GameState) : Reachable shuffle rules gs → Step shuffle gs gs' →
      Reachable shuffle rules gs'

/-- `deck.length + discardPile.length + Σ hand.length` — the raw JavaScript
lengths (an `undefined` hand entry counts, exactly as `Array.length` does). -/
def totalLen (gs : GameState) : Nat :=
  gs.deck.length + gs.discardPile.length +
    (gs.players.map (fun p => p.hand.length)).sum

/-- The number of actual cards on the table: deck, discard pile, and the
*defined* entries of every hand. -/
def realCount (gs : GameState) : Nat :=
  gs.deck.length + gs.discardPile.length +
    (gs.players.map (fun p => (p.hand.filterMap id).length)).sum

/-- The fixed card population for a rule configuration: 108 base cards, plus
4 shield cards and 2 sharePain cards for the enabled variants. -/
def population (rules : GameRules) : Nat :=
  108 + (if rules.shieldCards then 4 else 0) + (if rules.sharePain then 2 else 0)

/-- A minimal room state used as the base of concrete test states. -/
def baseState : GameState := {
  players := [], deck := [], discardPile := [], currentPlayerIndex := 0,
  currentColorInPlay := none, gameDirection := 1, isGameOver := false,
  stackPenalty := 0, stackType := none, isStackActive := false, showedUno := [],
  playerHasDrawnThisTurn := false, skipNextPlayer := false,
  gameRules := { jumpIn := false, shieldCards := false, sharePain := false, startingHandSize := 7 },
  sharePainBindings := [], waitingForColorSelection := false, isActionPaused := false }

/-- **C4.** For every card, top card and game state, when the acting hand
holds exactly one card, `isCardPlayable` returns `false` for every card whose
kind is skip, reverse, drawTwo, wildDrawFour, shield or sharePain. -/
theorem c4_one_card_blocks_action_kinds (gs : GameState) (card top : Card)
    (hk : card.ctype = .skip ∨ card.ctype = .reverse ∨ card.ctype = .drawTwo ∨
          card.ctype = .wildDrawFour ∨ card.ctype = .shield ∨ card.ctype = .sharePain) :
    isCardPlayable gs card (some top) 1 = false := by
  unfold isCardPlayable
  rcases hk with h | h | h | h | h | h <;> simp [h]

/-- Witness for C4 at a concrete input: a red skip over a red 5 with one card
in hand is unplayable. -/
theorem c4_one_card_blocks_action_kinds_witness :
    (⟨Color.red, "skip", CType.skip, "🚫"⟩ : Card).ctype = CType.skip ∧
    isCardPlayable baseState ⟨Color.red, "skip", CType.skip, "🚫"⟩
      (some ⟨Color.red, "5", CType.number, "5"⟩) 1 = false :=
  ⟨rfl, c4_one_card_blocks_action_kinds baseState _ _ (Or.inl rfl)⟩

theorem updateFirst_find_self (pid : String) (f : Player → Player)
    (hf : ∀ p, (f p).id = p.id) :
    ∀ l : List Player,
      (updateFirst (fun p => p.id == pid) f l).find? (fun p => p.id == pid) =
        (l.find? (fun p => p.id == pid)).map f := by
  intro l
  induction l with
  | nil => rfl
  | cons p ps ih =>
    by_cases h : p.id == pid
    · simp [updateFirst, h, List.find?_cons, hf]
    · simp [updateFirst, h, List.find?_cons, ih]

theorem updateFirst_find_other (pid q : String) (hq : q ≠ pid) (f : Player → Player)
    (hf : ∀ p, (f p).id = p.id) :
    ∀ l : List Player,
      (updateFirst (fun p => p.id == pid) f l).find? (fun p => p.id == q) =
        l.find? (fun p => p.id == q) := by
  intro l
  induction l with
  | nil => rfl
  | cons p ps ih =>
    by_cases h : p.id == pid
    · have hp : p.id = pid := by simpa using h
      have hpq : (p.id == q) = false := by
        simp only [beq_eq_false_iff_ne, ne_eq, hp]
        exact fun h' => hq h'.symm
      simp [updateFirst, h, List.find?_cons, hf, hpq]
    · by_cases h2 : p.id == q
      · simp [updateFirst, h, List.find?_cons, h2]
      · simp [updateFirst, h, List.find?_cons, h2, ih]

theorem refillDeck_players (shuffle : List Card → List Card) (gs : GameState) :
    (refillDeckFromDiscardPile shuffle gs).players = gs.players := by
  rw [refillDeckFromDiscardPile]
  split
  · rfl
  · split <;> rfl

theorem drawCardFromDeck_players (shuffle : List Card → List Card) (gs : GameState) :
    ((drawCardFromDeck shuffle gs).2).players = gs.players := by
  rw [drawCardFromDeck]
  by_cases h : gs.deck.length == 0
  · simp only [h, if_true]
    split <;> simp [refillDeck_players]
  · simp only [h, if_false]
    split <;> simp

theorem modifyPlayer_find_self (gs : GameState) (pid : String) (f : Player → Player)
    (hf : ∀ p, (f p).id = p.id) :
    findPlayer (modifyPlayer gs pid f) pid = (findPlayer gs pid).map f :=
  updateFirst_find_self pid f hf gs.players

theorem modifyPlayer_find_other (gs : GameState) (pid q : String) (hq : q ≠ pid)
    (f : Player → Player) (hf : ∀ p, (f p).id = p.id) :
    findPlayer (modifyPlayer gs pid f) q = findPlayer gs q :=
  updateFirst_find_other pid q hq f hf gs.players

theorem pushHand_find_self (gs : GameState) (pid : String) (c : Option Card) (p : Player)
    (hp : findPlayer gs pid = some p) :
    findPlayer (pushHand gs pid c) pid = some { p with hand := p.hand ++ [c] } := by
  rw [pushHand,
    modifyPlayer_find_self gs pid (fun p => { p with hand := p.hand ++ [c] }) (fun _ => rfl),
    hp, Option.map_some']

theorem pushHand_find_other (gs : GameState) (pid q : String) (hq : q ≠ pid) (c : Option Card) :
    findPlayer (pushHand gs pid c) q = findPlayer gs q :=
  modifyPlayer_find_other gs pid q hq _ (fun _ => rfl)

theorem drawCardFromDeck_find (shuffle : List Card → List Card) (gs : GameState)
    (pid : String) :
    findPlayer ((drawCardFromDeck shuffle gs).2) pid = findPlayer gs pid := by
  rw [findPlayer, drawCardFromDeck_players, findPlayer]

theorem drawCardsTo_find_other (shuffle : List Card → List Card) (tid q : String)
    (hq : q ≠ tid) :
    ∀ (n : Nat) (gs : GameState),
      findPlayer (drawCardsTo shuffle n gs tid).1 q = findPlayer gs q := by
  intro n
  induction n with
  | zero => intro gs; rfl
  | succ n ih =>
    intro gs
    rw [drawCardsTo]
    simp only
    rw [ih, pushHand_find_other _ _ _ hq, drawCardFromDeck_find]

theorem drawCardsTo_find_self (shuffle : List Card → List Card) (tid : String) :
    ∀ (n : Nat) (gs : GameState) (t : Player), findPlayer gs tid = some t →
      ∃ extra : List (Option Card), extra.length = n ∧
        findPlayer (drawCardsTo shuffle n gs tid).1 tid =
          some { t with hand := t.hand ++ extra } := by
  intro n
  induction n with
  | zero =>
    intro gs t ht
    exact ⟨[], rfl, by simpa using ht⟩
  | succ n ih =>
    intro gs t ht
    rw [drawCardsTo]
    simp only
    have h1 : findPlayer ((drawCardFromDeck shuffle gs).2) tid = some t := by
      rw [drawCardFromDeck_find]; exact ht
    have h2 := pushHand_find_self _ tid (drawCardFromDeck shuffle gs).1 t h1
    obtain ⟨extra, hlen, hfind⟩ := ih _ _ h2
    refine ⟨(drawCardFromDeck shuffle gs).1 :: extra, by simp [hlen], ?_⟩
    rw [hfind]
    simp

theorem drawCardsPair_find_other (shuffle : List Card → List Card) (tid pid q : String)
    (hqt : q ≠ tid) (hqp : q ≠ pid) :
    ∀ (n : Nat) (gs : GameState),
      findPlayer (drawCardsPair shuffle n gs tid pid).1 q = findPlayer gs q := by
  intro n
  induction n with
  | zero => intro gs; rfl
  | succ n ih =>
    intro gs
    rw [drawCardsPair]
    simp only
    rw [ih, pushHand_find_other _ _ _ hqp, pushHand_find_other _ _ _ hqt,
      drawCardFromDeck_find, drawCardFromDeck_find]

theorem drawCardsPair_find_target (shuffle : List Card → List Card) (tid pid : String)
    (hne : tid ≠ pid) :
    ∀ (n : Nat) (gs : GameState) (t : Player), findPlayer gs tid = some t →
      ∃ extra : List (Option Card), extra.length = n ∧
        findPlayer (drawCardsPair shuffle n gs tid pid).1 tid =
          some { t with hand := t.hand ++ extra } := by
  intro n
  induction n with
  | zero =>
    intro gs t ht
    exact ⟨[], rfl, by simpa using ht⟩
  | succ n ih =>
    intro gs t ht
    rw [drawCardsPair]
    simp only
    set c1 := (drawCardFromDeck shuffle gs).1 with hc1
    set gs1 := (drawCardFromDeck shuffle gs).2 with hgs1
    set c2 := (drawCardFromDeck shuffle gs1).1 with hc2
    set gs2 := (drawCardFromDeck shuffle gs1).2 with hgs2
    have h1 : findPlayer gs2 tid = some t := by
      rw [hgs2, drawCardFromDeck_find, hgs1, drawCardFromDeck_find]; exact ht
    have h2 := pushHand_find_self gs2 tid c1 t h1
    have h3 : findPlayer (pushHand (pushHand gs2 tid c1) pid c2) tid =
        some { t with hand := t.hand ++ [c1] } := by
      rw [pushHand_find_other _ _ _ hne]; exact h2
    obtain ⟨extra, hlen, hfind⟩ := ih _ _ h3
    refine ⟨c1 :: extra, by simp [hlen], ?_⟩
    rw [hfind]
    simp

theorem drawCardsPair_find_partner (shuffle : List Card → List Card) (tid pid : String)
    (hne : pid ≠ tid) :
    ∀ (n : Nat) (gs : GameState) (pp : Player), findPlayer gs pid = some pp →
      ∃ extra : List (Option Card), extra.length = n ∧
        findPlayer (drawCardsPair shuffle n gs tid pid).1 pid =
          some { pp with hand := pp.hand ++ extra } := by
  intro n
  induction n with
  | zero =>
    intro gs pp hp
    exact ⟨[], rfl, by simpa using hp⟩
  | succ n ih =>
    intro gs pp hp
    rw [drawCardsPair]
    simp only
    set c1 := (drawCardFromDeck shuffle gs).1 with hc1
    set gs1 := (drawCardFromDeck shuffle gs).2 with hgs1
    set c2 := (drawCardFromDeck shuffle gs1).1 with hc2
    set gs2 := (drawCardFromDeck shuffle gs1).2 with hgs2
    have h1 : findPlayer gs2 pid = some pp := by
      rw [hgs2, drawCardFromDeck_find, hgs1, drawCardFromDeck_find]; exact hp
    have h2 : findPlayer (pushHand gs2 tid c1) pid = some pp := by
      rw [pushHand_find_other _ _ _ hne]; exact h1
    have h3 := pushHand_find_self _ pid c2 pp h2
    obtain ⟨extra, hlen, hfind⟩ := ih _ _ h3
    refine ⟨c2 :: extra, by simp [hlen], ?_⟩
    rw [hfind]
    simp

example : ("timeout" == "stack") = false := by simp
example : ("timeout" == "stack") = false := by decide
example (b : Bool) : (b && ("timeout" == "stack" || "timeout" == "shield")) = false := by simp

/-- **C7.** Penalty resolution: with an attack reason (`stack` or `shield`),
the share-pain variant enabled and a binding touching the target (as binder
or bindee, with a seated partner distinct from the target), the target and
the partner each draw `count` cards symmetrically; with reason `timeout` only
the target draws `count` cards even if such a binding exists; and with no
binding touching the target, only the target draws `count` cards. -/
theorem c7_penalty_resolution (shuffle : List Card → List Card) (gs : GameState)
    (tid : String) (n : Nat) (t : Player) (ht : findPlayer gs tid = some t) :
    (∀ reason partnerId pp, (reason = "stack" ∨ reason = "shield") →
       gs.gameRules.sharePain = true →
       findSharePainPartner gs tid = some partnerId →
       findPlayer gs partnerId = some pp → partnerId ≠ tid →
       ∃ pr gs' e1 e2,
         applyPenaltyCards shuffle gs tid n reason = (some pr, gs') ∧
         pr.sharePainTriggered = true ∧
         e1.length = n ∧ e2.length = n ∧
         findPlayer gs' tid = some { t with hand := t.hand ++ e1 } ∧
         findPlayer gs' partnerId = some { pp with hand := pp.hand ++ e2 }) ∧
    ((∃ e : List (Option Card), e.length = n ∧
        findPlayer (applyPenaltyCards shuffle gs tid n "timeout").2 tid =
          some { t with hand := t.hand ++ e }) ∧
     (∀ q, q ≠ tid →
        findPlayer (applyPenaltyCards shuffle gs tid n "timeout").2 q = findPlayer gs q)) ∧
    (∀ reason, findSharePainPartner gs tid = none →
       (∃ e : List (Option Card), e.length = n ∧
          findPlayer (applyPenaltyCards shuffle gs tid n reason).2 tid =
            some { t with hand := t.hand ++ e }) ∧
       (∀ q, q ≠ tid →
          findPlayer (applyPenaltyCards shuffle gs tid n reason).2 q = findPlayer gs q)) := by
  refine ⟨?_, ?_, ?_⟩
  · intro reason partnerId pp hreason hsp hpartner hpp hne
    have hcond : (gs.gameRules.sharePain && (reason == "stack" || reason == "shield")) = true := by
      rcases hreason with h | h <;> simp [h, hsp]
    obtain ⟨e1, hl1, hf1⟩ :=
      drawCardsPair_find_target shuffle tid partnerId (fun h => hne h.symm) n gs t ht
    obtain ⟨e2, hl2, hf2⟩ := drawCardsPair_find_partner shuffle tid partnerId hne n gs pp hpp
    refine ⟨⟨true, tid, [tid, pp.id], n, (drawCardsPair shuffle n gs tid partnerId).2⟩,
            (drawCardsPair shuffle n gs tid partnerId).1, e1, e2, ?_, rfl, hl1, hl2, hf1, hf2⟩
    rw [applyPenaltyCards, ht]
    simp [hcond, hpartner, hpp]
  · constructor
    · obtain ⟨e, hl, hf⟩ := drawCardsTo_find_self shuffle tid n gs t ht
      refine ⟨e, hl, ?_⟩
      rw [applyPenaltyCards, ht]
      simp only [show (gs.gameRules.sharePain &&
        ("timeout" == "stack" || "timeout" == "shield")) = false by simp, Bool.false_eq_true,
        if_false]
      simpa using hf
    · intro q hq
      rw [applyPenaltyCards, ht]
      simp only [show (gs.gameRules.sharePain &&
        ("timeout" == "stack" || "timeout" == "shield")) = false by simp, Bool.false_eq_true,
        if_false]
      simpa using drawCardsTo_find_other shuffle tid q hq n gs
  · intro reason hnone
    constructor
    · obtain ⟨e, hl, hf⟩ := drawCardsTo_find_self shuffle tid n gs t ht
      refine ⟨e, hl, ?_⟩
      rw [applyPenaltyCards, ht]
      by_cases hcond : (gs.gameRules.sharePain && (reason == "stack" || reason == "shield")) = true
      · simp only [hcond, if_true, hnone]
        simpa using hf
      · rw [if_neg (by simpa using hcond)]
        simpa using hf
    · intro q hq
      rw [applyPenaltyCards, ht]
      have hother := drawCardsTo_find_other shuffle tid q hq n gs
      by_cases hcond : (gs.gameRules.sharePain && (reason == "stack" || reason == "shield")) = true
      · simp only [hcond, if_true, hnone]
        simpa using hother
      · rw [if_neg (by simpa using hcond)]
        simpa using hother

/-- The identity permutation: the Fisher-Yates shuffle outcome in which every
sampled index equals the loop index. -/
def idShuffle : List Card → List Card := id

/-- A concrete three-seat room with the share-pain variant enabled and an
active binding between the first two seats. -/
def c7gs : GameState := { baseState with
  players := [⟨"player_0", "A", false, []⟩, ⟨"player_1", "B", false, []⟩,
              ⟨"player_2", "C", false, []⟩],
  deck := [⟨.red, "1", .number, "1"⟩, ⟨.red, "2", .number, "2"⟩,
           ⟨.red, "3", .number, "3"⟩, ⟨.red, "4", .number, "4"⟩,
           ⟨.red, "5", .number, "5"⟩],
  gameRules := { jumpIn := false, shieldCards := false, sharePain := true,
                 startingHandSize := 7 },
  sharePainBindings := [("player_0", "player_1")] }

/-- Witness for C7: three seats, share-pain on, binding (player_0, player_1);
a stacked penalty of 2 on player_0 draws 2 for player_0 and 2 for player_1,
while a timeout penalty of 2 on player_0 leaves player_1 untouched. -/
theorem c7_penalty_resolution_witness :
    ((findPlayer (applyPenaltyCards idShuffle c7gs "player_0" 2 "stack").2 "player_0").map
       (fun p => p.hand.length) = some 2) ∧
    ((findPlayer (applyPenaltyCards idShuffle c7gs "player_0" 2 "stack").2 "player_1").map
       (fun p => p.hand.length) = some 2) ∧
    ((findPlayer (applyPenaltyCards idShuffle c7gs "player_0" 2 "timeout").2 "player_0").map
       (fun p => p.hand.length) = some 2) ∧
    (findPlayer (applyPenaltyCards idShuffle c7gs "player_0" 2 "timeout").2 "player_1" =
       findPlayer c7gs "player_1") := by
  have h := c7_penalty_resolution idShuffle c7gs "player_0" 2
    ⟨"player_0", "A", false, []⟩ (by decide)
  obtain ⟨pr, gs', e1, e2, happ, htrig, hl1, hl2, hf1, hf2⟩ :=
    h.1 "stack" "player_1" ⟨"player_1", "B", false, []⟩ (Or.inl rfl) rfl (by decide)
      (by decide) (by decide)
  obtain ⟨⟨e, hl, hf⟩, hothers⟩ := h.2.1
  refine ⟨?_, ?_, ?_, hothers "player_1" (by decide)⟩
  · rw [happ, hf1]; simp [hl1]
  · rw [happ, hf2]; simp [hl2]
  · rw [hf]; simp [hl]

/-- The target of a penalty always draws the full count: under any reason and
binding configuration (no self-binding), `applyPenaltyCards` pushes exactly
`n` entries onto the target's hand. -/
theorem applyPenaltyCards_target (shuffle : List Card → List Card) (gs : GameState)
    (tid : String) (n : Nat) (reason : String) (p : Player)
    (hp : findPlayer gs tid = some p)
    (hself : ∀ x, findSharePainPartner gs tid = some x → x ≠ tid) :
    ∃ pr gs', ∃ e : List (Option Card),
      applyPenaltyCards shuffle gs tid n reason = (some pr, gs') ∧
      e.length = n ∧
      findPlayer gs' tid = some { p with hand := p.hand ++ e } := by
  rw [applyPenaltyCards, hp]
  by_cases hcond : (gs.gameRules.sharePain && (reason == "stack" || reason == "shield")) = true
  · rw [if_pos hcond]
    cases hpartner : findSharePainPartner gs tid with
    | none =>
      obtain ⟨e, hl, hf⟩ := drawCardsTo_find_self shuffle tid n gs p hp
      simp only []
      exact ⟨_, _, e, rfl, hl, hf⟩
    | some partnerId =>
      cases hpp : findPlayer gs partnerId with
      | none =>
        obtain ⟨e, hl, hf⟩ := drawCardsTo_find_self shuffle tid n gs p hp
        simp only [hpp]
        exact ⟨_, _, e, rfl, hl, hf⟩
      | some pp =>
        obtain ⟨e, hl, hf⟩ := drawCardsPair_find_target shuffle tid partnerId
          (fun h => hself partnerId hpartner h.symm) n gs p hp
        simp only [hpp]
        exact ⟨_, _, e, rfl, hl, hf⟩
  · rw [if_neg hcond]
    obtain ⟨e, hl, hf⟩ := drawCardsTo_find_self shuffle tid n gs p hp
    simp only []
    exact ⟨_, _, e, rfl, hl, hf⟩

/-- **C5.** `drawCard` rejects a second voluntary draw in the same turn (the
current player has drawn and no stack is active) with an error, leaving the
state untouched; with an active stack the penalty draw is never rejected: it
succeeds, draws the full accumulated count onto the player, closes the stack
(`active` false, count 0, kind none) — regardless of the has-drawn flag. -/
theorem c5_drawCard_voluntary_vs_penalty (shuffle : List Card → List Card)
    (gs : GameState) (pid : String) (te : Bool) (p : Player)
    (hp : findPlayer gs pid = some p)
    (hself : ∀ x, findSharePainPartner gs pid = some x → x ≠ pid) :
    (gs.playerHasDrawnThisTurn = true → gs.isStackActive = false →
       drawCard shuffle gs pid te = .err "本回合已經抽過牌") ∧
    (gs.isStackActive = true →
       ∃ r gs', ∃ e : List (Option Card),
         drawCard shuffle gs pid te = .ok r gs' ∧
         r.drewPenalty = true ∧
         e.length = gs.stackPenalty ∧
         findPlayer gs' pid = some { p with hand := p.hand ++ e } ∧
         gs'.isStackActive = false ∧ gs'.stackPenalty = 0 ∧ gs'.stackType = none ∧
         gs'.playerHasDrawnThisTurn = true) := by
  constructor
  · intro hdrawn hactive
    rw [drawCard, hp]
    simp [hdrawn, hactive]
  · intro hactive
    rw [drawCard, hp]
    obtain ⟨pr, g1, e, happ, hl, hf⟩ :=
      applyPenaltyCards_target shuffle gs pid gs.stackPenalty "stack" p hp hself
    simp only [hactive, Bool.not_true, Bool.and_false, Bool.false_eq_true, if_false, if_true,
      happ]
    refine ⟨_, _, e, rfl, rfl, hl, ?_, rfl, rfl, rfl, rfl⟩
    simpa [pauseStart, findPlayer] using hf

/-- A room where the current player already drew this turn (no stack). -/
def c5gsVol : GameState := { baseState with
  players := [⟨"player_0", "A", false, [some ⟨.red, "1", .number, "1"⟩]⟩],
  deck := [⟨.red, "2", .number, "2"⟩],
  discardPile := [⟨.red, "5", .number, "5"⟩],
  playerHasDrawnThisTurn := true }

/-- A room with an active drawTwo stack of 2 where the current player has
already drawn this turn (the penalty draw must still be allowed). -/
def c5gsPen : GameState := { baseState with
  players := [⟨"player_0", "A", false, [some ⟨.red, "1", .number, "1"⟩]⟩],
  deck := [⟨.red, "2", .number, "2"⟩, ⟨.red, "3", .number, "3"⟩,
           ⟨.red, "4", .number, "4"⟩],
  discardPile := [⟨.red, "drawTwo", .drawTwo, "+2"⟩],
  isStackActive := true, stackType := some .drawTwo, stackPenalty := 2,
  playerHasDrawnThisTurn := true }

/-- Witness for C5: the second voluntary draw errors; with a stack active the
draw succeeds despite the has-drawn flag, adds 2 cards, and closes the stack. -/
theorem c5_drawCard_voluntary_vs_penalty_witness :
    (drawCard idShuffle c5gsVol "player_0" false = .err "本回合已經抽過牌") ∧
    ((drawCard idShuffle c5gsPen "player_0" false).isOk = true) ∧
    ((findPlayer ((drawCard idShuffle c5gsPen "player_0" false).stateOf c5gsPen)
        "player_0").map (fun p => p.hand.length) = some 3) ∧
    (((drawCard idShuffle c5gsPen "player_0" false).stateOf c5gsPen).isStackActive = false) := by
  have h1 := (c5_drawCard_voluntary_vs_penalty idShuffle c5gsVol "player_0" false
    ⟨"player_0", "A", false, [some ⟨.red, "1", .number, "1"⟩]⟩ (by decide)
    (by intro x hx; simp [findSharePainPartner, c5gsVol, baseState] at hx)).1 rfl rfl
  obtain ⟨r, gs', e, heq, hdrew, hl, hf, hact, _, _, _⟩ :=
    (c5_drawCard_voluntary_vs_penalty idShuffle c5gsPen "player_0" false
      ⟨"player_0", "A", false, [some ⟨.red, "1", .number, "1"⟩]⟩ (by decide)
      (by intro x hx; simp [findSharePainPartner, c5gsPen, baseState] at hx)).2 rfl
  refine ⟨h1, ?_, ?_, ?_⟩
  · rw [heq]; rfl
  · rw [heq]
    show (findPlayer gs' "player_0").map (fun p => p.hand.length) = some 3
    rw [hf]
    have : e.length = 2 := hl
    simp [this]
  · rw [heq]
    exact hact

theorem applyPenaltyCards_other_nobind (shuffle : List Card → List Card) (gs : GameState)
    (tid : String) (n : Nat) (reason : String) (q : String) (hq : q ≠ tid)
    (hnone : findSharePainPartner gs tid = none) :
    findPlayer (applyPenaltyCards shuffle gs tid n reason).2 q = findPlayer gs q := by
  rw [applyPenaltyCards]
  cases ht : findPlayer gs tid with
  | none => rfl
  | some t =>
    by_cases hcond : (gs.gameRules.sharePain && (reason == "stack" || reason == "shield")) = true
    · rw [if_pos hcond, hnone]
      simpa using drawCardsTo_find_other shuffle tid q hq n gs
    · rw [if_neg hcond]
      simpa using drawCardsTo_find_other shuffle tid q hq n gs

theorem pushHand_deck (gs : GameState) (pid : String) (c : Option Card) :
    (pushHand gs pid c).deck = gs.deck := rfl

theorem pushHand_discard (gs : GameState) (pid : String) (c : Option Card) :
    (pushHand gs pid c).discardPile = gs.discardPile := rfl

theorem drawCardFromDeck_of_ne_nil (shuffle : List Card → List Card) (gs : GameState)
    (h : gs.deck ≠ []) :
    (drawCardFromDeck shuffle gs).2.discardPile = gs.discardPile ∧
    (drawCardFromDeck shuffle gs).2.deck.length = gs.deck.length - 1 := by
  rw [drawCardFromDeck]
  have hlen : (gs.deck.length == 0) = false := by
    simp [List.length_eq_zero, h]
  cases hg : gs.deck.getLast? with
  | none => exact absurd (List.getLast?_eq_none_iff.mp hg) h
  | some c => simp [hlen, hg]

theorem drawCardsTo_deck_discard (shuffle : List Card → List Card) (tid : String) :
    ∀ (n : Nat) (gs : GameState), n ≤ gs.deck.length →
      (drawCardsTo shuffle n gs tid).1.discardPile = gs.discardPile ∧
      (drawCardsTo shuffle n gs tid).1.deck.length = gs.deck.length - n := by
  intro n
  induction n with
  | zero => intro gs _; exact ⟨rfl, rfl⟩
  | succ n ih =>
    intro gs hn
    have hne : gs.deck ≠ [] := by
      intro h
      rw [h] at hn
      simp at hn
    obtain ⟨hd, hl⟩ := drawCardFromDeck_of_ne_nil shuffle gs hne
    rw [drawCardsTo]
    simp only
    have hn' : n ≤ (pushHand (drawCardFromDeck shuffle gs).2 tid
        (drawCardFromDeck shuffle gs).1).deck.length := by
      rw [pushHand_deck, hl]
      omega
    obtain ⟨ihd, ihl⟩ := ih _ hn'
    constructor
    · rw [ihd, pushHand_discard, hd]
    · rw [ihl, pushHand_deck, hl]
      omega

theorem applyPenaltyCards_deck_discard_nobind (shuffle : List Card → List Card)
    (gs : GameState) (tid : String) (n : Nat) (reason : String)
    (hnone : findSharePainPartner gs tid = none) (hn : n ≤ gs.deck.length) :
    (applyPenaltyCards shuffle gs tid n reason).2.discardPile = gs.discardPile := by
  rw [applyPenaltyCards]
  cases ht : findPlayer gs tid with
  | none => rfl
  | some t =>
    by_cases hcond : (gs.gameRules.sharePain && (reason == "stack" || reason == "shield")) = true
    · rw [if_pos hcond, hnone]
      simpa using (drawCardsTo_deck_discard shuffle tid n gs hn).1
    · rw [if_neg hcond]
      simpa using (drawCardsTo_deck_discard shuffle tid n gs hn).1

/-- A shield card is playable whenever a stack is active, the shield variant
is on, no lock or color choice is pending, and the hand is not at one card. -/
theorem shield_playable (gs : GameState) (card : Card) (top : Option Card) (hs : Nat)
    (hcard : card.ctype = .shield) (hact : gs.isStackActive = true)
    (hrules : gs.gameRules.shieldCards = true) (hpau : gs.isActionPaused = false)
    (hwait : gs.waitingForColorSelection = false) (hhs : hs ≠ 1) :
    isCardPlayable gs card top hs = true := by
  cases top with
  | none => rfl
  | some t => simp [isCardPlayable, hpau, hwait, hact, hrules, hcard, hhs]

/-- **C6.** Playing a shield against an active stack of count N removes the
shield from the hand, redirects the entire penalty of N cards onto the seat
at `currentPlayerIndex - direction` (wrapped) — not onto the shield player —
and clears the stack (active false, count 0, kind none). -/
theorem c6_shield_redirects_previous_seat (shuffle : List Card → List Card)
    (gs : GameState) (pid : String) (ci : Nat) (p prev : Player) (card : Card)
    (hp : findPlayer gs pid = some p)
    (hcardAt : p.hand.get? ci = some (some card))
    (hctype : card.ctype = .shield)
    (hactive : gs.isStackActive = true)
    (hrules : gs.gameRules.shieldCards = true)
    (hpau : gs.isActionPaused = false)
    (hwait : gs.waitingForColorSelection = false)
    (hlen : p.hand.length ≠ 1)
    (hprev : gs.players.get? (getPreviousPlayerIndex gs) = some prev)
    (hprevfind : findPlayer gs prev.id = some prev)
    (hprevne : prev.id ≠ pid)
    (hbind : gs.sharePainBindings = [])
    (hdeck : gs.stackPenalty ≤ gs.deck.length) :
    ∃ r gs', ∃ e : List (Option Card),
      playCard shuffle gs pid ci = .ok r gs' ∧
      r.shieldUsed = true ∧ r.attackerId = some prev.id ∧ r.shieldUserId = some pid ∧
      e.length = gs.stackPenalty ∧
      findPlayer gs' prev.id = some { prev with hand := prev.hand ++ e } ∧
      findPlayer gs' pid = some { p with hand := p.hand.eraseIdx ci } ∧
      gs'.isStackActive = false ∧ gs'.stackPenalty = 0 ∧ gs'.stackType = none ∧
      gs'.discardPile = gs.discardPile ++ [card] := by
  have hnone : findSharePainPartner gs prev.id = none := by
    simp [findSharePainPartner, hbind]
  have hlt : ¬ (ci ≥ p.hand.length) := by
    intro h
    rw [List.get?_eq_none.mpr h] at hcardAt
    cases hcardAt
  have hplay := shield_playable gs card gs.discardPile.getLast? p.hand.length
    hctype hactive hrules hpau hwait hlen
  obtain ⟨pr, g1, e, happ, hl, hf1⟩ :=
    applyPenaltyCards_target shuffle gs prev.id gs.stackPenalty "shield" prev hprevfind
      (by intro x hx; rw [hnone] at hx; cases hx)
  have hg1pid : findPlayer g1 pid = some p := by
    have := applyPenaltyCards_other_nobind shuffle gs prev.id gs.stackPenalty "shield" pid
      (fun h => hprevne h.symm) hnone
    rw [happ] at this
    simpa using this.trans hp
  have hg1disc : g1.discardPile = gs.discardPile := by
    have := applyPenaltyCards_deck_discard_nobind shuffle gs prev.id gs.stackPenalty "shield"
      hnone hdeck
    rw [happ] at this
    simpa using this
  rw [playCard, hp]
  simp only []
  rw [if_neg hlt]
  simp only [hcardAt]
  simp only [hplay, Bool.not_true, Bool.false_eq_true, if_false, hctype]
  simp only [show (CType.shield == CType.shield && gs.isStackActive) = true by
    simp [hactive], if_true]
  rw [playCardShield]
  simp only [hprev, happ]
  refine ⟨_, _, e, rfl, rfl, rfl, rfl, hl, ?_, ?_, rfl, rfl, rfl, ?_⟩
  · show findPlayer (pauseStart _) prev.id = _
    have : findPlayer (modifyPlayer g1 pid
        (fun q => { q with hand := q.hand.eraseIdx ci })) prev.id = findPlayer g1 prev.id :=
      modifyPlayer_find_other g1 pid prev.id hprevne _ (fun _ => rfl)
    simpa [pauseStart, findPlayer] using this.trans hf1
  · show findPlayer (pauseStart _) pid = _
    have : findPlayer (modifyPlayer g1 pid
        (fun q => { q with hand := q.hand.eraseIdx ci })) pid =
        (findPlayer g1 pid).map (fun q => { q with hand := q.hand.eraseIdx ci }) :=
      modifyPlayer_find_self g1 pid _ (fun _ => rfl)
    rw [hg1pid] at this
    simpa [pauseStart, findPlayer] using this
  · show (pauseStart _).discardPile = _
    simp [pauseStart, modifyPlayer, hg1disc]

/-- A two-seat room with an active drawTwo stack of 4, shield variant on, and
the current seat holding a shield plus one number card. -/
def c6gs : GameState := { baseState with
  players := [⟨"player_0", "A", false,
                [some ⟨.white, "shield", .shield, "🛡️"⟩, some ⟨.red, "1", .number, "1"⟩]⟩,
              ⟨"player_1", "B", false, [some ⟨.red, "2", .number, "2"⟩]⟩],
  deck := [⟨.red, "3", .number, "3"⟩, ⟨.red, "4", .number, "4"⟩,
           ⟨.red, "6", .number, "6"⟩, ⟨.red, "7", .number, "7"⟩],
  discardPile := [⟨.red, "drawTwo", .drawTwo, "+2"⟩],
  gameRules := { jumpIn := false, shieldCards := true, sharePain := false,
                 startingHandSize := 7 },
  isStackActive := true, stackType := some .drawTwo, stackPenalty := 4 }

/-- Witness for C6: the shield play succeeds, the previous seat (player_1)
draws all 4 cards, the shield leaves the hand, and the stack is cleared. -/
theorem c6_shield_redirects_previous_seat_witness :
    ((playCard idShuffle c6gs "player_0" 0).isOk = true) ∧
    ((findPlayer ((playCard idShuffle c6gs "player_0" 0).stateOf c6gs) "player_1").map
       (fun q => q.hand.length) = some 5) ∧
    ((findPlayer ((playCard idShuffle c6gs "player_0" 0).stateOf c6gs) "player_0").map
       (fun q => q.hand.length) = some 1) ∧
    (((playCard idShuffle c6gs "player_0" 0).stateOf c6gs).isStackActive = false) ∧
    (((playCard idShuffle c6gs "player_0" 0).stateOf c6gs).stackPenalty = 0) := by
  obtain ⟨r, gs', e, heq, _, _, _, hl, hfprev, hfself, hact, hpen, _, _⟩ :=
    c6_shield_redirects_previous_seat idShuffle c6gs "player_0" 0
      ⟨"player_0", "A", false,
        [some ⟨.white, "shield", .shield, "🛡️"⟩, some ⟨.red, "1", .number, "1"⟩]⟩
      ⟨"player_1", "B", false, [some ⟨.red, "2", .number, "2"⟩]⟩
      ⟨.white, "shield", .shield, "🛡️"⟩
      (by decide) (by decide) rfl rfl rfl rfl rfl (by decide) (by decide) (by decide)
      (by decide) rfl (by decide)
  rw [heq]
  simp only [Outcome.stateOf, Outcome.isOk]
  refine ⟨trivial, ?_, ?_, hact, hpen⟩
  · rw [hfprev]
    have : e.length = 4 := hl
    simp [this]
  · rw [hfself]
    simp

/-- `applyCardEffect` touches only the skip flag, the direction and the
stack fields; every other component of the state is preserved. -/
theorem applyCardEffect_shape (gs : GameState) (card : Card) :
    ∃ sk d act t pen, applyCardEffect gs card =
      { gs with skipNextPlayer := sk, gameDirection := d, isStackActive := act,
                stackType := t, stackPenalty := pen } := by
  obtain ⟨cc, cv, ct, cd⟩ := card
  cases ct <;> simp only [applyCardEffect] <;> first
    | (split <;> exact ⟨_, _, _, _, _, rfl⟩)
    | exact ⟨_, _, _, _, _, rfl⟩

/-- A one-seat room with no color choice pending and a number card on top. -/
def c8gs : GameState := { baseState with
  players := [⟨"player_0", "A", false, [some ⟨.red, "1", .number, "1"⟩]⟩],
  discardPile := [⟨.red, "5", .number, "5"⟩] }

/-- Counterexample to C8 as stated: `selectColor` succeeds from the current
seat with a natural color even though no color choice is pending
(`waitingForColorSelection` is false and is never checked). -/
theorem c8_counterexample :
    c8gs.waitingForColorSelection = false ∧
    (selectColor c8gs "player_0" Color.red).isOk = true := by decide

/-- **C8 (amended).** `selectColor` succeeds iff the color is one of the four
natural colors and the caller is the current seat; the pending-color flag is
not consulted, so it also succeeds when no choice is outstanding.  On an
invalid color or a non-current seat it returns an error (state unchanged),
and on success the pending flag is cleared and the chosen color installed. -/
theorem c8_selectColor_amended (gs : GameState) (pid : String) (color : Color) (cp : Player)
    (hc : gs.players.get? gs.currentPlayerIndex = some cp)
    (htop : gs.discardPile ≠ []) :
    ((selectColor gs pid color).isOk = true ↔
       ((color = .red ∨ color = .yellow ∨ color = .green ∨ color = .blue) ∧ pid = cp.id)) ∧
    (∀ r gs', selectColor gs pid color = .ok r gs' →
       gs'.waitingForColorSelection = false ∧ gs'.currentColorInPlay = some color) ∧
    (¬((color = .red ∨ color = .yellow ∨ color = .green ∨ color = .blue) ∧ pid = cp.id) →
       ∃ m, selectColor gs pid color = .err m) := by
  obtain ⟨t, ht⟩ : ∃ t, gs.discardPile.getLast? = some t := by
    cases hg : gs.discardPile.getLast? with
    | none => exact absurd (List.getLast?_eq_none_iff.mp hg) htop
    | some t => exact ⟨t, rfl⟩
  have ht' : ({ gs with
      waitingForColorSelection := false,
      currentColorInPlay := some color } : GameState).discardPile.getLast? = some t := ht
  have hcg : gs.players[gs.currentPlayerIndex]? = some cp := by
    simpa [← List.get?_eq_getElem?] using hc
  refine ⟨?_, ?_, ?_⟩
  · cases color <;> by_cases hpid : pid = cp.id <;>
      simp [selectColor, hcg, ht', hpid, Outcome.isOk]
  · intro r gs' heq
    obtain ⟨sk, d, act, ty, pen, hshape⟩ := applyCardEffect_shape
      { gs with
        waitingForColorSelection := false, currentColorInPlay := some color } t
    cases color <;> by_cases hpid : pid = cp.id <;>
      simp [selectColor, hcg, ht', hpid] at heq
    all_goals
      rw [← heq.2, hshape]
      exact ⟨rfl, rfl⟩
  · intro hnot
    cases color <;> by_cases hpid : pid = cp.id <;>
      simp [selectColor, hcg, ht', hpid, hnot] <;> simp at hnot <;> try exact hnot hpid

/-- Witness for the amended C8: from `c8gs` (no pending color choice), the
current seat's red succeeds, black is rejected, and a non-current seat is
rejected. -/
theorem c8_selectColor_amended_witness :
    ((selectColor c8gs "player_0" Color.red).isOk = true) ∧
    (∃ m, selectColor c8gs "player_0" Color.black = .err m) ∧
    (∃ m, selectColor c8gs "player_9" Color.red = .err m) := by
  refine ⟨?_, ?_, ?_⟩
  · exact (c8_selectColor_amended c8gs "player_0" Color.red
      ⟨"player_0", "A", false, [some ⟨.red, "1", .number, "1"⟩]⟩ (by decide)
      (by decide)).1.mpr ⟨Or.inl rfl, rfl⟩
  · exact (c8_selectColor_amended c8gs "player_0" Color.black
      ⟨"player_0", "A", false, [some ⟨.red, "1", .number, "1"⟩]⟩ (by decide)
      (by decide)).2.2 (by simp)
  · exact (c8_selectColor_amended c8gs "player_9" Color.red
      ⟨"player_0", "A", false, [some ⟨.red, "1", .number, "1"⟩]⟩ (by decide)
      (by decide)).2.2 (by simp)

theorem findIdx?_isSome_of_find? (pred : Player → Bool) :
    ∀ (l : List Player) (p : Player), l.find? pred = some p → ∃ i, l.findIdx? pred = some i := by
  intro l
  induction l with
  | nil => intro p h; cases h
  | cons q qs ih =>
    intro p h
    by_cases hq : pred q
    · exact ⟨0, by simp [List.findIdx?_cons, hq]⟩
    · rw [List.find?_cons_of_neg _ hq] at h
      obtain ⟨i, hi⟩ := ih p h
      exact ⟨i + 1, by simp [List.findIdx?_cons, hq, hi]⟩

theorem canJumpIn_true_elim (gs : GameState) (w : Bool) (pid : String) (ci : Nat)
    (h : canJumpIn gs w pid ci = some true) :
    ∃ player, findPlayer gs pid = some player ∧ ¬(ci ≥ player.hand.length) ∧
      ∃ card, player.hand.get? ci = some (some card) := by
  rw [canJumpIn] at h
  by_cases h1 : (!gs.gameRules.jumpIn || gs.isActionPaused || !w) = true
  · rw [if_pos h1] at h; cases h
  · rw [if_neg h1] at h
    cases hf : findPlayer gs pid with
    | none => rw [hf] at h; cases h
    | some player =>
      rw [hf] at h
      simp only [] at h
      by_cases h2 : ci ≥ player.hand.length
      · rw [if_pos h2] at h; cases h
      · rw [if_neg h2] at h
        refine ⟨player, rfl, h2, ?_⟩
        cases hg : player.hand.get? ci with
        | none =>
          exact absurd (List.get?_eq_none.mp hg) h2
        | some entry =>
          cases entry with
          | none =>
            rw [hg] at h
            cases htop : gs.discardPile.getLast? with
            | none => rw [htop] at h; cases h
            | some top => rw [htop] at h; cases h
          | some card => exact ⟨card, rfl⟩

/-- **C9.** `jumpIn` is guarded only by the triple-match test `canJumpIn`
(variant on, window open, no lock): whenever that guard passes, the jump-in
succeeds — the playability predicate is never consulted — and with a
one-card hand the jump-in wins immediately, even on an action card and even
while a penalty stack is active. -/
theorem c9_jumpIn_bypasses_playability (gs : GameState) (w : Bool) (pid : String) (ci : Nat)
    (h : canJumpIn gs w pid ci = some true) :
    ((jumpIn gs w pid ci).isOk = true) ∧
    (∀ p, findPlayer gs pid = some p → p.hand.length = 1 →
       ∃ r gs', jumpIn gs w pid ci = .ok r gs' ∧ r.winner = some p.name ∧
         gs'.isGameOver = true) := by
  obtain ⟨player, hf, hlt, card, hcard⟩ := canJumpIn_true_elim gs w pid ci h
  obtain ⟨i, hi⟩ := findIdx?_isSome_of_find? _ _ _ hf
  rw [jumpIn, h]
  rw [show findPlayerIdx gs pid = some i from hi, hf]
  simp only [hcard]
  constructor
  · split
    · rfl
    · split <;> rfl
  · intro p hp hone
    injection hp with hp
    subst hp
    rw [if_pos (by simp [hone])]
    exact ⟨_, _, rfl, rfl, rfl⟩

/-- A jump-in-enabled room with an active drawTwo stack where player_1 holds
exactly one card: an exact copy of the discard top (a red drawTwo). -/
def c9gs : GameState := { baseState with
  players := [⟨"player_0", "A", false,
                [some ⟨.red, "5", .number, "5"⟩, some ⟨.red, "6", .number, "6"⟩]⟩,
              ⟨"player_1", "B", false, [some ⟨.red, "drawTwo", .drawTwo, "+2"⟩]⟩],
  deck := [⟨.blue, "1", .number, "1"⟩, ⟨.blue, "2", .number, "2"⟩],
  discardPile := [⟨.red, "drawTwo", .drawTwo, "+2"⟩],
  gameRules := { jumpIn := true, shieldCards := false, sharePain := false,
                 startingHandSize := 7 },
  isStackActive := true, stackType := some .drawTwo, stackPenalty := 2 }

/-- Witness for C9: the same card is rejected by `playCard` (one-card hand,
action kind, during an active stack) yet the jump-in succeeds and wins. -/
theorem c9_jumpIn_bypasses_playability_witness :
    (canJumpIn c9gs true "player_1" 0 = some true) ∧
    (isCardPlayable c9gs ⟨.red, "drawTwo", .drawTwo, "+2"⟩
       (some ⟨.red, "drawTwo", .drawTwo, "+2"⟩) 1 = false) ∧
    (playCard idShuffle c9gs "player_1" 0 = .err "這張牌不能出") ∧
    ((jumpIn c9gs true "player_1" 0).isOk = true) ∧
    (∃ r gs', jumpIn c9gs true "player_1" 0 = .ok r gs' ∧ r.winner = some "B" ∧
       gs'.isGameOver = true) := by
  have h := c9_jumpIn_bypasses_playability c9gs true "player_1" 0 (by decide)
  refine ⟨by decide, by decide, by decide, h.1, ?_⟩
  obtain ⟨r, gs', heq, hw, hover⟩ := h.2
    ⟨"player_1", "B", false, [some ⟨.red, "drawTwo", .drawTwo, "+2"⟩]⟩ (by decide) rfl
  exact ⟨r, gs', heq, hw, hover⟩

/-- A hand entry as carried by a per-seat view: the recipient's own entries
are sent as-is; other seats' entries are replaced by the empty object `{}`. -/
inductive ViewCard where
  | hidden
  | seen (c : Option Card)
deriving DecidableEq, Repr

/-- A seat as carried by a per-seat view.  `handCount` is present only on
redacted seats. -/
structure ViewPlayer where
  id : String
  name : String
  isComputer : Bool
  hand : List ViewCard
  handCount : Option Nat
deriving DecidableEq, Repr

/-- The object emitted to one recipient: the spread of the whole `gameState`
(including the full `deck` and `discardPile` arrays), the sanitized seat
list, and a `deckCount`. -/
structure ViewState where
  players : List ViewPlayer
  deck : List Card
  discardPile : List Card
  deckCount : Nat
  currentPlayerIndex : Nat
  currentColorInPlay : Option Color
  gameDirection : Int
  isGameOver : Bool
  stackPenalty : Nat
  stackType : Option CType
  isStackActive : Bool
  showedUno : List String
  playerHasDrawnThisTurn : Bool
  skipNextPlayer : Bool
  gameRules : GameRules
  sharePainBindings : Bindings
  waitingForColorSelection : Bool
  isActionPaused : Bool
deriving DecidableEq, Repr

/-- The per-seat sanitizer: the viewer keeps its hand; every other seat's
hand becomes a same-length list of empty placeholders plus a `handCount`. -/
def sanitizePlayer (viewerId : String) (p : Player) : ViewPlayer :=
  if p.id == viewerId then
    { id := p.id, name := p.name, isComputer := p.isComputer,
      hand := p.hand.map ViewCard.seen, handCount := none }
  else
    { id := p.id, name := p.name, isComputer := p.isComputer,
      hand := p.hand.map (fun _ => ViewCard.hidden), handCount := some p.hand.length }

/-- `getGameStateForPlayer(playerId)`: the sanitized per-seat view. -/
def getGameStateForPlayer (gs : GameState) (viewerId : String) : ViewState :=
  { players := gs.players.map (sanitizePlayer viewerId),
    deck := gs.deck, discardPile := gs.discardPile, deckCount := gs.deck.length,
    currentPlayerIndex := gs.currentPlayerIndex,
    currentColorInPlay := gs.currentColorInPlay, gameDirection := gs.gameDirection,
    isGameOver := gs.isGameOver, stackPenalty := gs.stackPenalty,
    stackType := gs.stackType, isStackActive := gs.isStackActive,
    showedUno := gs.showedUno, playerHasDrawnThisTurn := gs.playerHasDrawnThisTurn,
    skipNextPlayer := gs.skipNextPlayer, gameRules := gs.gameRules,
    sharePainBindings := gs.sharePainBindings,
    waitingForColorSelection := gs.waitingForColorSelection,
    isActionPaused := gs.isActionPaused }

/-- **C10.** The per-seat view redacts every other seat's hand to placeholder
objects carrying only a count, yet carries the room's full `deck` and
`discardPile` verbatim: two states differing only in the hidden deck order
yield distinguishable views for every recipient. -/
theorem c10_view_reveals_deck (gs : GameState) (viewerId : String)
    (d1 d2 : List Card) (hne : d1 ≠ d2) :
    (getGameStateForPlayer gs viewerId).deck = gs.deck ∧
    (getGameStateForPlayer gs viewerId).discardPile = gs.discardPile ∧
    (getGameStateForPlayer gs viewerId).players = gs.players.map (sanitizePlayer viewerId) ∧
    (∀ p, p ∈ gs.players → p.id ≠ viewerId →
       sanitizePlayer viewerId p =
         { id := p.id, name := p.name, isComputer := p.isComputer,
           hand := p.hand.map (fun _ => ViewCard.hidden),
           handCount := some p.hand.length }) ∧
    getGameStateForPlayer { gs with deck := d1 } viewerId ≠
      getGameStateForPlayer { gs with deck := d2 } viewerId := by
  refine ⟨rfl, rfl, rfl, ?_, ?_⟩
  · intro p _ hp
    rw [sanitizePlayer, if_neg (by simpa using hp)]
  · intro h
    exact hne (congrArg ViewState.deck h)

/-- Witness for C10: two one-card decks differing only in that card produce
different views for the non-current recipient player_1, whose own redacted
entry still reveals nothing beyond a count. -/
theorem c10_view_reveals_deck_witness :
    ([⟨Color.red, "1", CType.number, "1"⟩] ≠ ([⟨Color.red, "2", CType.number, "2"⟩] : List Card)) ∧
    getGameStateForPlayer { c8gs with deck := [⟨Color.red, "1", CType.number, "1"⟩] } "player_1" ≠
      getGameStateForPlayer { c8gs with deck := [⟨Color.red, "2", CType.number, "2"⟩] } "player_1" :=
  ⟨by decide,
   (c10_view_reveals_deck c8gs "player_1"
      [⟨Color.red, "1", CType.number, "1"⟩] [⟨Color.red, "2", CType.number, "2"⟩]
      (by decide)).2.2.2.2⟩

/-- A room at the degenerate draw edge: empty deck and a one-card discard. -/
def c2gs : GameState := { baseState with
  players := [⟨"player_0", "A", false, [some ⟨.red, "1", .number, "1"⟩]⟩,
              ⟨"player_1", "B", false, [some ⟨.red, "2", .number, "2"⟩]⟩],
  deck := [], discardPile := [⟨.red, "5", .number, "5"⟩] }

/-- The room state the degenerate draw leaves behind. -/
def c2After : GameState := (drawCard idShuffle c2gs "player_0" false).stateOf c2gs

/-- Counterexample to C2 as stated: with an empty deck and a one-card discard
pile, the draw request is *not* a clean no-op — the handler throws a
TypeError and the requesting hand has grown by one (undefined) entry. -/
theorem c2_counterexample :
    c2gs.deck = [] ∧ c2gs.discardPile.length ≤ 1 ∧
    drawCard idShuffle c2gs "player_0" false = Outcome.crash c2After ∧
    ((findPlayer c2gs "player_0").map (fun p => p.hand.length) = some 1) ∧
    ((findPlayer c2After "player_0").map (fun p => p.hand.length) = some 2) ∧
    ((findPlayer c2After "player_0").map (fun p => p.hand.getLast?) = some (some none)) := by
  decide

/-- **C2 (amended).** With an empty deck and at most one discard card, the
refill itself does nothing (the deck stays empty and the discard pile is
untouched), but the surrounding draw request is not a no-op: `deck.pop()`
yields `undefined`, which is pushed onto the player's hand (its length grows
by one), and the voluntary-draw path then throws a TypeError when the
playability check touches the undefined card. -/
theorem c2_degenerate_draw_amended (shuffle : List Card → List Card) (gs : GameState)
    (pid : String) (te : Bool) (p : Player)
    (hdeck : gs.deck = []) (hdisc : gs.discardPile.length ≤ 1)
    (hp : findPlayer gs pid = some p)
    (hnd : gs.playerHasDrawnThisTurn = false) (hstack : gs.isStackActive = false)
    (hpau : gs.isActionPaused = false) (hwait : gs.waitingForColorSelection = false)
    (htop : gs.discardPile ≠ []) :
    (∀ gs₀ : GameState, gs₀.discardPile.length ≤ 1 →
        refillDeckFromDiscardPile shuffle gs₀ = gs₀) ∧
    drawCard shuffle gs pid te =
      .crash { pushHand gs pid none with playerHasDrawnThisTurn := true } ∧
    findPlayer ({ pushHand gs pid none with playerHasDrawnThisTurn := true } : GameState) pid =
      some { p with hand := p.hand ++ [none] } := by
  have hrefill : ∀ gs₀ : GameState, gs₀.discardPile.length ≤ 1 →
      refillDeckFromDiscardPile shuffle gs₀ = gs₀ := by
    intro gs₀ h
    rw [refillDeckFromDiscardPile, if_pos h]
  have hdc : drawCardFromDeck shuffle gs = (none, gs) := by
    rw [drawCardFromDeck]
    simp [hdeck, hrefill gs hdisc]
  obtain ⟨t, ht⟩ : ∃ t, gs.discardPile.getLast? = some t := by
    cases hg : gs.discardPile.getLast? with
    | none => exact absurd (List.getLast?_eq_none_iff.mp hg) htop
    | some t => exact ⟨t, rfl⟩
  have htop2 : ({ pushHand gs pid none with
      playerHasDrawnThisTurn := true } : GameState).discardPile.getLast? = some t := by
    rw [show ({ pushHand gs pid none with
      playerHasDrawnThisTurn := true } : GameState).discardPile = gs.discardPile from rfl, ht]
  refine ⟨hrefill, ?_, ?_⟩
  · rw [drawCard, hp]
    simp only [hnd, hstack, Bool.false_and, Bool.false_eq_true, if_false, hdc]
    simp only [htop2,
      show (pushHand gs pid none).isActionPaused = false from hpau,
      show (pushHand gs pid none).waitingForColorSelection = false from hwait,
      Bool.or_self, Bool.false_eq_true, if_false]
  · rw [show findPlayer ({ pushHand gs pid none with
        playerHasDrawnThisTurn := true } : GameState) pid = findPlayer (pushHand gs pid none) pid
        from rfl]
    exact pushHand_find_self gs pid none p hp

/-- Witness for the amended C2 at the concrete degenerate room `c2gs`. -/
theorem c2_degenerate_draw_amended_witness :
    (refillDeckFromDiscardPile idShuffle c2gs = c2gs) ∧
    drawCard idShuffle c2gs "player_0" false =
      .crash { pushHand c2gs "player_0" none with playerHasDrawnThisTurn := true } ∧
    findPlayer ({ pushHand c2gs "player_0" none with
        playerHasDrawnThisTurn := true } : GameState) "player_0" =
      some ⟨"player_0", "A", false, [some ⟨.red, "1", .number, "1"⟩, none]⟩ := by
  have h := c2_degenerate_draw_amended idShuffle c2gs "player_0" false
    ⟨"player_0", "A", false, [some ⟨.red, "1", .number, "1"⟩]⟩
    rfl (by decide) (by decide) rfl rfl rfl rfl (by decide)
  exact ⟨h.1 c2gs (by decide), h.2.1, h.2.2⟩

/-! ## Conservation of the card population -/

/-- The number of actual cards a possibly-`undefined` draw carries. -/
def oCount (c : Option Card) : Nat :=
  match c with
  | none => 0
  | some _ => 1

/-- The number of defined cards in a hand. -/
def realLen (p : Player) : Nat := (p.hand.filterMap id).length

theorem realCount_eq (gs : GameState) :
    realCount gs = gs.deck.length + gs.discardPile.length +
      (gs.players.map realLen).sum := rfl

theorem sum_map_updateFirst_add (pred : Player → Bool) (f : Player → Player)
    (g : Player → Nat) (k : Nat) (hf : ∀ p, pred p = true → g (f p) = g p + k) :
    ∀ l : List Player,
      ((updateFirst pred f l).map g).sum =
        (l.map g).sum + (if (l.find? pred).isSome then k else 0) := by
  intro l
  induction l with
  | nil => simp [updateFirst]
  | cons p ps ih =>
    by_cases h : pred p
    · simp [updateFirst, h, List.find?_cons, hf p h]
      omega
    · simp [updateFirst, h, List.find?_cons, ih]
      omega

theorem realCount_pushHand (gs : GameState) (pid : String) (c : Option Card) :
    realCount (pushHand gs pid c) =
      realCount gs + (if (findPlayer gs pid).isSome then oCount c else 0) := by
  have h := sum_map_updateFirst_add (fun p => p.id == pid)
    (fun p => { p with hand := p.hand ++ [c] }) realLen (oCount c)
    (by
      intro p _
      cases c <;> simp [realLen, oCount, List.filterMap_append])
    gs.players
  simp only [realCount_eq, pushHand, modifyPlayer, findPlayer]
  rw [h]
  omega

theorem realCount_pushHand_found (gs : GameState) (pid : String) (c : Option Card)
    (h : (findPlayer gs pid).isSome) :
    realCount (pushHand gs pid c) = realCount gs + oCount c := by
  rw [realCount_pushHand, if_pos h]

theorem findPlayer_pushHand_isSome (gs : GameState) (pid q : String) (c : Option Card)
    (h : (findPlayer gs q).isSome) : (findPlayer (pushHand gs pid c) q).isSome := by
  by_cases hq : q = pid
  · subst hq
    obtain ⟨p, hp⟩ := Option.isSome_iff_exists.mp h
    rw [pushHand_find_self gs q c p hp]
    rfl
  · rw [pushHand_find_other gs pid q hq c]
    exact h

theorem realCount_set_deck_dropLast (gs : GameState) (h : gs.deck ≠ []) :
    realCount { gs with deck := gs.deck.dropLast } + 1 = realCount gs := by
  simp only [realCount_eq]
  have := List.length_pos.mpr h
  rw [List.length_dropLast]
  omega

theorem realCount_refill (shuffle : List Card → List Card)
    (hs : ∀ l, (shuffle l).length = l.length) (gs : GameState) (hdeck : gs.deck = []) :
    realCount (refillDeckFromDiscardPile shuffle gs) = realCount gs := by
  rw [refillDeckFromDiscardPile]
  split
  · rfl
  · rename_i hlen
    cases hg : gs.discardPile.getLast? with
    | none => rfl
    | some t =>
      simp only [realCount_eq, hs, List.length_dropLast, hdeck, List.length_nil,
        List.length_singleton]
      omega

theorem realCount_drawCardFromDeck (shuffle : List Card → List Card)
    (hs : ∀ l, (shuffle l).length = l.length) (gs : GameState) :
    realCount (drawCardFromDeck shuffle gs).2 + oCount (drawCardFromDeck shuffle gs).1 =
      realCount gs := by
  rw [drawCardFromDeck]
  by_cases h : (gs.deck.length == 0) = true
  · have hdeck : gs.deck = [] := by simpa using h
    simp only [h, if_true]
    have hrc := realCount_refill shuffle hs gs hdeck
    set g := refillDeckFromDiscardPile shuffle gs with hgdef
    cases hg : g.deck.getLast? with
    | none => simpa [oCount] using hrc
    | some c =>
      have hne : g.deck ≠ [] := by
        intro hnil
        rw [List.getLast?_eq_none_iff.mpr hnil] at hg
        cases hg
      simp only [oCount]
      calc realCount { g with deck := g.deck.dropLast } + 1
          = realCount g := realCount_set_deck_dropLast g hne
        _ = realCount gs := hrc
  · have hb : (gs.deck.length == 0) = false := by
      simpa using h
    simp only [hb, Bool.false_eq_true, if_false]
    cases hg : gs.deck.getLast? with
    | none => simp [hg, oCount]
    | some c =>
      have hne : gs.deck ≠ [] := by
        intro hnil
        rw [List.getLast?_eq_none_iff.mpr hnil] at hg
        cases hg
      simp only [hg, oCount]
      exact realCount_set_deck_dropLast gs hne

theorem realCount_drawCardsTo (shuffle : List Card → List Card)
    (hs : ∀ l, (shuffle l).length = l.length) (tid : String) :
    ∀ (n : Nat) (gs : GameState), (findPlayer gs tid).isSome →
      realCount (drawCardsTo shuffle n gs tid).1 = realCount gs := by
  intro n
  induction n with
  | zero => intro gs _; rfl
  | succ n ih =>
    intro gs hfind
    rw [drawCardsTo]
    simp only
    have h1 : (findPlayer (drawCardFromDeck shuffle gs).2 tid).isSome := by
      rw [drawCardFromDeck_find]; exact hfind
    have h2 := findPlayer_pushHand_isSome (drawCardFromDeck shuffle gs).2 tid tid
      (drawCardFromDeck shuffle gs).1 h1
    rw [ih _ h2, realCount_pushHand_found _ _ _ h1,
      realCount_drawCardFromDeck shuffle hs gs]

theorem realCount_drawCardsPair (shuffle : List Card → List Card)
    (hs : ∀ l, (shuffle l).length = l.length) (tid pid : String) :
    ∀ (n : Nat) (gs : GameState), (findPlayer gs tid).isSome → (findPlayer gs pid).isSome →
      realCount (drawCardsPair shuffle n gs tid pid).1 = realCount gs := by
  intro n
  induction n with
  | zero => intro gs _ _; rfl
  | succ n ih =>
    intro gs ht hp
    rw [drawCardsPair]
    simp only
    set gs1 := (drawCardFromDeck shuffle gs).2
    set c1 := (drawCardFromDeck shuffle gs).1
    set gs2 := (drawCardFromDeck shuffle gs1).2
    set c2 := (drawCardFromDeck shuffle gs1).1
    have ht2 : (findPlayer gs2 tid).isSome := by
      show (findPlayer (drawCardFromDeck shuffle gs1).2 tid).isSome
      rw [drawCardFromDeck_find]
      show (findPlayer (drawCardFromDeck shuffle gs).2 tid).isSome
      rw [drawCardFromDeck_find]
      exact ht
    have hp2 : (findPlayer gs2 pid).isSome := by
      show (findPlayer (drawCardFromDeck shuffle gs1).2 pid).isSome
      rw [drawCardFromDeck_find]
      show (findPlayer (drawCardFromDeck shuffle gs).2 pid).isSome
      rw [drawCardFromDeck_find]
      exact hp
    have hp3 : (findPlayer (pushHand gs2 tid c1) pid).isSome :=
      findPlayer_pushHand_isSome gs2 tid pid c1 hp2
    have ht3 : (findPlayer (pushHand (pushHand gs2 tid c1) pid c2) tid).isSome :=
      findPlayer_pushHand_isSome _ pid tid c2 (findPlayer_pushHand_isSome gs2 tid tid c1 ht2)
    have hp4 : (findPlayer (pushHand (pushHand gs2 tid c1) pid c2) pid).isSome :=
      findPlayer_pushHand_isSome _ pid pid c2 hp3
    rw [ih _ ht3 hp4, realCount_pushHand_found _ _ _ hp3, realCount_pushHand_found _ _ _ ht2]
    have hd2 : realCount gs2 + oCount c2 = realCount gs1 :=
      realCount_drawCardFromDeck shuffle hs gs1
    have hd1 : realCount gs1 + oCount c1 = realCount gs :=
      realCount_drawCardFromDeck shuffle hs gs
    omega

theorem realCount_applyPenaltyCards (shuffle : List Card → List Card)
    (hs : ∀ l, (shuffle l).length = l.length) (gs : GameState) (tid : String)
    (n : Nat) (reason : String) :
    realCount (applyPenaltyCards shuffle gs tid n reason).2 = realCount gs := by
  rw [applyPenaltyCards]
  cases ht : findPlayer gs tid with
  | none => rfl
  | some t =>
    have htS : (findPlayer gs tid).isSome = true := by rw [ht]; rfl
    by_cases hcond : (gs.gameRules.sharePain && (reason == "stack" || reason == "shield")) = true
    · rw [if_pos hcond]
      cases hpartner : findSharePainPartner gs tid with
      | none => simpa using realCount_drawCardsTo shuffle hs tid n gs htS
      | some partnerId =>
        cases hpp : findPlayer gs partnerId with
        | none =>
          simp only [hpp]
          simpa using realCount_drawCardsTo shuffle hs tid n gs htS
        | some pp =>
          have hppS : (findPlayer gs partnerId).isSome = true := by rw [hpp]; rfl
          simp only [hpp]
          simpa using realCount_drawCardsPair shuffle hs tid partnerId n gs htS hppS
    · rw [if_neg hcond]
      simpa using realCount_drawCardsTo shuffle hs tid n gs htS

theorem sum_map_updateFirst_found_sub (pred : Player → Bool) (f : Player → Player)
    (g : Player → Nat) (k : Nat) (p : Player) :
    ∀ l : List Player, l.find? pred = some p → g p = g (f p) + k →
      (l.map g).sum = ((updateFirst pred f l).map g).sum + k := by
  intro l
  induction l with
  | nil => intro h _; cases h
  | cons q qs ih =>
    intro hfind hk
    by_cases hq : pred q
    · rw [List.find?_cons_of_pos _ hq] at hfind
      injection hfind with hfind
      subst hfind
      simp [updateFirst, hq, hk]
      omega
    · rw [List.find?_cons_of_neg _ hq] at hfind
      simp [updateFirst, hq, ih hfind hk]
      omega

theorem filterMap_eraseIdx_length :
    ∀ (l : List (Option Card)) (i : Nat) (c : Card), l.get? i = some (some c) →
      ((l.eraseIdx i).filterMap id).length + 1 = (l.filterMap id).length := by
  intro l
  induction l with
  | nil => intro i c h; cases h
  | cons x xs ih =>
    intro i c h
    cases i with
    | zero =>
      injection h with h
      subst h
      simp [List.eraseIdx]
    | succ i =>
      have := ih i c h
      cases x with
      | none => simpa [List.eraseIdx] using this
      | some y => simpa [List.eraseIdx] using this

theorem realCount_modify_erase (gs : GameState) (pid : String) (ci : Nat) (p : Player)
    (card : Card) (hp : findPlayer gs pid = some p)
    (hcard : p.hand.get? ci = some (some card)) :
    realCount (modifyPlayer gs pid (fun q => { q with hand := q.hand.eraseIdx ci })) + 1 =
      realCount gs := by
  have hk : realLen p = realLen { p with hand := p.hand.eraseIdx ci } + 1 :=
    (filterMap_eraseIdx_length p.hand ci card hcard).symm
  have h := sum_map_updateFirst_found_sub (fun q => q.id == pid)
    (fun q => { q with hand := q.hand.eraseIdx ci }) realLen 1 p gs.players hp hk
  simp only [realCount_eq, modifyPlayer]
  omega

theorem realCount_push_discard (gs : GameState) (card : Card) :
    realCount { gs with discardPile := gs.discardPile ++ [card] } = realCount gs + 1 := by
  simp only [realCount_eq, List.length_append, List.length_singleton]
  omega

theorem realCount_nextTurn (gs : GameState) : realCount (nextTurn gs) = realCount gs := by
  rw [nextTurn]
  simp only
  split <;> rfl

theorem realCount_pauseResume (gs : GameState) :
    realCount (pauseResume gs) = realCount gs := by
  rw [pauseResume]
  simp only
  split
  · rfl
  · exact realCount_nextTurn _

theorem realCount_selectColor (gs : GameState) (pid : String) (c : Color) :
    realCount ((selectColor gs pid c).stateOf gs) = realCount gs := by
  rw [selectColor]
  split
  · rfl
  · cases hcp : gs.players.get? gs.currentPlayerIndex with
    | none => rfl
    | some cp =>
      simp only
      split
      · rfl
      · cases hg : gs.discardPile.getLast? with
        | none =>
          have hg2 : ({ gs with
              waitingForColorSelection := false,
              currentColorInPlay := some c } : GameState).discardPile.getLast? = none := hg
          simp only [hg2, Outcome.stateOf]
          rfl
        | some top =>
          have hg2 : ({ gs with
              waitingForColorSelection := false,
              currentColorInPlay := some c } : GameState).discardPile.getLast? = some top := hg
          simp only [hg2, Outcome.stateOf]
          obtain ⟨sk, d, act, ty, pen, hshape⟩ := applyCardEffect_shape
            { gs with
              waitingForColorSelection := false, currentColorInPlay := some c } top
          rw [hshape]
          rfl

theorem realCount_playSharePainCard (gs : GameState) (pid : String) (ci : Nat)
    (tid : String) :
    realCount ((playSharePainCard gs pid ci tid).stateOf gs) = realCount gs := by
  rw [playSharePainCard]
  cases hp : findPlayer gs pid <;> cases ht : findPlayer gs tid <;> simp only
  case none.none => rfl
  case none.some => rfl
  case some.none => rfl
  case some.some player _ =>
    split
    · rfl
    · cases hc : player.hand.get? ci with
      | none => rfl
      | some entry =>
        cases entry with
        | none => rfl
        | some card =>
          simp only
          split
          · rfl
          · split
            · rfl
            · have hrc := realCount_modify_erase gs pid ci player card hp hc
              simp only [realCount_eq, modifyPlayer, pauseStart] at hrc ⊢
              split <;> split <;>
                simp only [List.length_append, List.length_singleton, Outcome.stateOf] <;>
                omega

theorem realCount_pauseStart (gs : GameState) : realCount (pauseStart gs) = realCount gs := rfl

theorem realCount_applyCardEffect (gs : GameState) (card : Card) :
    realCount (applyCardEffect gs card) = realCount gs := by
  obtain ⟨sk, d, act, ty, pen, hshape⟩ := applyCardEffect_shape gs card
  rw [hshape]
  rfl

theorem realCount_jumpIn (gs : GameState) (w : Bool) (pid : String) (ci : Nat) :
    realCount ((jumpIn gs w pid ci).stateOf gs) = realCount gs := by
  rw [jumpIn]
  cases hcj : canJumpIn gs w pid ci with
  | none => rfl
  | some b =>
    cases b with
    | false => rfl
    | true =>
      obtain ⟨player, hf, hlt, card, hcard⟩ := canJumpIn_true_elim gs w pid ci hcj
      obtain ⟨i, hi⟩ := findIdx?_isSome_of_find? _ _ _ hf
      rw [hf, show findPlayerIdx gs pid = some i from hi]
      simp only [hcard]
      have hrc := realCount_modify_erase gs pid ci player card hf hcard
      split
      · simp only [Outcome.stateOf]
        simp only [realCount_eq, modifyPlayer] at hrc ⊢
        split <;> simp only [List.length_append, List.length_singleton] <;> omega
      · split
        · simp only [Outcome.stateOf]
          simp only [realCount_eq, modifyPlayer] at hrc ⊢
          split <;> simp only [List.length_append, List.length_singleton] <;> omega
        · simp only [Outcome.stateOf, realCount_pauseStart, realCount_applyCardEffect]
          simp only [realCount_eq, modifyPlayer] at hrc ⊢
          split <;> simp only [List.length_append, List.length_singleton] <;> omega

theorem realCount_handleTurnTimeout (shuffle : List Card → List Card)
    (hs : ∀ l, (shuffle l).length = l.length) (gs : GameState) :
    realCount ((handleTurnTimeout shuffle gs).stateOf gs) = realCount gs := by
  rw [handleTurnTimeout]
  cases hcp : gs.players.get? gs.currentPlayerIndex with
  | none => rfl
  | some cp =>
    simp only
    split
    · split
      · have hrc := realCount_applyPenaltyCards shuffle hs gs cp.id gs.stackPenalty "timeout"
        split
        · simp only [Outcome.stateOf]
          simp only [realCount_eq] at hrc ⊢
          omega
        · simp only [Outcome.stateOf, realCount_pauseStart]
          simp only [realCount_eq] at hrc ⊢
          omega
      · have hrc := realCount_applyPenaltyCards shuffle hs gs cp.id 1 "timeout"
        split
        · simp only [Outcome.stateOf]
          simp only [realCount_eq] at hrc ⊢
          omega
        · simp only [Outcome.stateOf, realCount_pauseStart]
          simp only [realCount_eq] at hrc ⊢
          omega
    · rfl

theorem realCount_timeout_mapped (shuffle : List Card → List Card)
    (hs : ∀ l, (shuffle l).length = l.length) (g0 gs : GameState)
    (h : realCount g0 = realCount gs) :
    realCount ((match handleTurnTimeout shuffle g0 with
      | .ok _ s => Outcome.ok { timeoutFlag := true } s
      | .err e => .err e
      | .crash s => .crash s).stateOf gs) = realCount gs := by
  have htm := realCount_handleTurnTimeout shuffle hs g0
  cases htt : handleTurnTimeout shuffle g0 with
  | ok r s =>
    rw [htt] at htm
    simp only [Outcome.stateOf] at htm ⊢
    exact htm.trans h
  | err e => simp [Outcome.stateOf]
  | crash s =>
    rw [htt] at htm
    simp only [Outcome.stateOf] at htm ⊢
    exact htm.trans h

theorem realCount_drawCard (shuffle : List Card → List Card)
    (hs : ∀ l, (shuffle l).length = l.length) (gs : GameState) (pid : String) (te : Bool) :
    realCount ((drawCard shuffle gs pid te).stateOf gs) = realCount gs := by
  rw [drawCard]
  cases hp : findPlayer gs pid with
  | none => rfl
  | some player =>
    simp only
    split
    · rfl
    · split
      · have hrc := realCount_applyPenaltyCards shuffle hs gs pid gs.stackPenalty "stack"
        split
        · simp only [Outcome.stateOf]
          simp only [realCount_eq] at hrc ⊢
          omega
        · simp only [Outcome.stateOf, realCount_pauseStart]
          simp only [realCount_eq] at hrc ⊢
          omega
      · have hd := realCount_drawCardFromDeck shuffle hs gs
        have hfs : (findPlayer (drawCardFromDeck shuffle gs).2 pid).isSome := by
          rw [drawCardFromDeck_find, hp]; rfl
        have hps := realCount_pushHand_found (drawCardFromDeck shuffle gs).2 pid
          (drawCardFromDeck shuffle gs).1 hfs
        have hg2 : realCount ({ pushHand (drawCardFromDeck shuffle gs).2 pid
            (drawCardFromDeck shuffle gs).1 with playerHasDrawnThisTurn := true } : GameState) =
            realCount gs := by
          simp only [realCount_eq] at hd hps ⊢
          simp only [pushHand, modifyPlayer] at hps ⊢
          omega
        cases hc : (drawCardFromDeck shuffle gs).1 with
        | none =>
          rw [hc] at hg2
          simp only
          split
          · split
            · exact realCount_timeout_mapped shuffle hs _ gs hg2
            · simp only [Outcome.stateOf]
              exact hg2
          · split
            · simp only [Outcome.stateOf, realCount_pauseStart]
              exact hg2
            · simp only [Outcome.stateOf]
              exact hg2
        | some card =>
          rw [hc] at hg2
          simp only
          split
          · split
            · exact realCount_timeout_mapped shuffle hs _ gs hg2
            · simp only [Outcome.stateOf]
              exact hg2
          · simp only [Outcome.stateOf, realCount_pauseStart]
            exact hg2

theorem pushHand_find_appends (gs : GameState) (pid q : String) (c : Option Card)
    (p : Player) (h : findPlayer gs q = some p) :
    ∃ e : List (Option Card),
      findPlayer (pushHand gs pid c) q = some { p with hand := p.hand ++ e } := by
  by_cases hq : q = pid
  · subst hq
    exact ⟨[c], pushHand_find_self gs q c p h⟩
  · refine ⟨[], ?_⟩
    rw [pushHand_find_other gs pid q hq c, h]
    simp

theorem drawCardsPair_find_appends (shuffle : List Card → List Card) (tid pid : String) :
    ∀ (n : Nat) (gs : GameState) (q : String) (p : Player), findPlayer gs q = some p →
      ∃ e : List (Option Card),
        findPlayer (drawCardsPair shuffle n gs tid pid).1 q =
          some { p with hand := p.hand ++ e } := by
  intro n
  induction n with
  | zero =>
    intro gs q p h
    exact ⟨[], by simpa using h⟩
  | succ n ih =>
    intro gs q p h
    rw [drawCardsPair]
    simp only
    have h2 : findPlayer (drawCardFromDeck shuffle
        (drawCardFromDeck shuffle gs).2).2 q = some p := by
      rw [drawCardFromDeck_find, drawCardFromDeck_find]; exact h
    obtain ⟨e1, h3⟩ := pushHand_find_appends _ tid q (drawCardFromDeck shuffle gs).1 p h2
    obtain ⟨e2, h4⟩ := pushHand_find_appends _ pid q
      (drawCardFromDeck shuffle (drawCardFromDeck shuffle gs).2).1 _ h3
    obtain ⟨e3, h5⟩ := ih _ q _ h4
    refine ⟨e1 ++ e2 ++ e3, ?_⟩
    rw [h5]
    simp

theorem drawCardsTo_find_appends (shuffle : List Card → List Card) (tid : String)
    (n : Nat) (gs : GameState) (q : String) (p : Player) (h : findPlayer gs q = some p) :
    ∃ e : List (Option Card),
      findPlayer (drawCardsTo shuffle n gs tid).1 q = some { p with hand := p.hand ++ e } := by
  by_cases hq : q = tid
  · subst hq
    obtain ⟨e, _, hf⟩ := drawCardsTo_find_self shuffle q n gs p h
    exact ⟨e, hf⟩
  · refine ⟨[], ?_⟩
    rw [drawCardsTo_find_other shuffle tid q hq n gs, h]
    simp

theorem applyPenaltyCards_find_appends (shuffle : List Card → List Card) (gs : GameState)
    (tid : String) (n : Nat) (reason : String) (q : String) (p : Player)
    (h : findPlayer gs q = some p) :
    ∃ e : List (Option Card),
      findPlayer (applyPenaltyCards shuffle gs tid n reason).2 q =
        some { p with hand := p.hand ++ e } := by
  rw [applyPenaltyCards]
  cases ht : findPlayer gs tid with
  | none => exact ⟨[], by simpa using h⟩
  | some t =>
    by_cases hcond : (gs.gameRules.sharePain && (reason == "stack" || reason == "shield")) = true
    · rw [if_pos hcond]
      cases hpartner : findSharePainPartner gs tid with
      | none => simpa using drawCardsTo_find_appends shuffle tid n gs q p h
      | some partnerId =>
        cases hpp : findPlayer gs partnerId with
        | none =>
          simp only [hpp]
          simpa using drawCardsTo_find_appends shuffle tid n gs q p h
        | some pp =>
          simp only [hpp]
          simpa using drawCardsPair_find_appends shuffle tid partnerId n gs q p h
    · rw [if_neg hcond]
      simpa using drawCardsTo_find_appends shuffle tid n gs q p h

theorem realCount_playCardShield (shuffle : List Card → List Card)
    (hs : ∀ l, (shuffle l).length = l.length) (gs : GameState) (pid : String) (ci : Nat)
    (card : Card) (p : Player) (hp : findPlayer gs pid = some p)
    (hcard : p.hand.get? ci = some (some card)) :
    realCount ((playCardShield shuffle gs pid ci card).stateOf gs) = realCount gs := by
  rw [playCardShield]
  cases hprev : gs.players.get? (getPreviousPlayerIndex gs) with
  | none => rfl
  | some prev =>
    dsimp only
    obtain ⟨extra, hfind1⟩ := applyPenaltyCards_find_appends shuffle gs prev.id
      gs.stackPenalty "shield" pid p hp
    have hget : ({ p with hand := p.hand ++ extra } : Player).hand.get? ci =
        some (some card) := by
      have hlt : ci < p.hand.length := by
        by_contra hge
        rw [List.get?_eq_none.mpr (Nat.le_of_not_lt hge)] at hcard
        cases hcard
      show (p.hand ++ extra).get? ci = some (some card)
      rw [List.get?_append hlt]
      exact hcard
    have hrc1 := realCount_applyPenaltyCards shuffle hs gs prev.id gs.stackPenalty "shield"
    have hrc2 := realCount_modify_erase
      (applyPenaltyCards shuffle gs prev.id gs.stackPenalty "shield").2 pid ci
      _ card hfind1 hget
    split
    · simp only [Outcome.stateOf]
      simp only [realCount_eq, modifyPlayer] at hrc1 hrc2 ⊢
      simp only [List.length_append, List.length_singleton]
      omega
    · simp only [Outcome.stateOf, realCount_pauseStart]
      simp only [realCount_eq, modifyPlayer] at hrc1 hrc2 ⊢
      simp only [List.length_append, List.length_singleton]
      omega

theorem realCount_playCardNormal (gs : GameState) (pid : String) (ci : Nat)
    (card : Card) (p : Player) (hp : findPlayer gs pid = some p)
    (hcard : p.hand.get? ci = some (some card)) :
    realCount ((playCardNormal gs p pid ci card).stateOf gs) = realCount gs := by
  rw [playCardNormal]
  dsimp only
  have hrc := realCount_modify_erase gs pid ci p card hp hcard
  split
  · simp only [Outcome.stateOf, realCount_pauseStart]
    simp only [realCount_eq, modifyPlayer] at hrc ⊢
    split <;> split <;>
      simp only [List.length_append, List.length_singleton] <;> omega
  · split
    · simp only [Outcome.stateOf]
      rw [show ∀ g : GameState, realCount { g with isGameOver := true } =
        realCount g from fun _ => rfl]
      rw [realCount_applyCardEffect]
      simp only [realCount_eq, modifyPlayer] at hrc ⊢
      split <;> split <;>
        simp only [List.length_append, List.length_singleton] <;> omega
    · simp only [Outcome.stateOf, realCount_pauseStart]
      rw [realCount_applyCardEffect]
      simp only [realCount_eq, modifyPlayer] at hrc ⊢
      split <;> split <;>
        simp only [List.length_append, List.length_singleton] <;> omega

theorem realCount_playCard (shuffle : List Card → List Card)
    (hs : ∀ l, (shuffle l).length = l.length) (gs : GameState) (pid : String) (ci : Nat) :
    realCount ((playCard shuffle gs pid ci).stateOf gs) = realCount gs := by
  rw [playCard]
  cases hp : findPlayer gs pid with
  | none => rfl
  | some player =>
    dsimp only
    split
    · rfl
    · cases hc : player.hand.get? ci with
      | none => rfl
      | some entry =>
        cases entry with
        | none =>
          cases gs.discardPile.getLast? with
          | none => rfl
          | some _ =>
            dsimp only
            split <;> rfl
        | some card =>
          dsimp only
          split
          · rfl
          · split
            · exact realCount_playCardShield shuffle hs gs pid ci card player hp hc
            · exact realCount_playCardNormal gs pid ci card player hp hc

theorem createDeck_length (rules : GameRules) :
    (createDeck rules).length = population rules := by
  obtain ⟨j, sh, sp, n⟩ := rules
  cases sh <;> cases sp <;> rfl

/-- **C1 (amended).** Every observable operation of an active room preserves
`deck.length + discardPile.length + Σ (defined cards per hand)`, and
`createDeck` produces exactly the fixed population of the enabled variants.
The raw JavaScript length sum additionally counts `undefined` hand entries,
so it exceeds the population once a degenerate draw (empty deck, discard at
most one card) has occurred. -/
theorem c1_conservation_amended (shuffle : List Card → List Card)
    (hs : ∀ l, (shuffle l).length = l.length) (gs gs' : GameState)
    (hstep : Step shuffle gs gs') :
    realCount gs' = realCount gs ∧
    (∀ rules : GameRules, (createDeck rules).length = population rules) := by
  refine ⟨?_, createDeck_length⟩
  cases hstep with
  | playCard pid ci => exact realCount_playCard shuffle hs gs pid ci
  | drawCard pid te => exact realCount_drawCard shuffle hs gs pid te
  | jumpIn w pid ci => exact realCount_jumpIn gs w pid ci
  | selectColor pid c => exact realCount_selectColor gs pid c
  | playSharePain pid ci tid => exact realCount_playSharePainCard gs pid ci tid
  | timeout => exact realCount_handleTurnTimeout shuffle hs gs
  | animationDone => exact realCount_pauseResume gs

/-- Witness for the amended C1: a concrete animation-release step preserves
the defined-card count, and the base deck has exactly 108 cards. -/
theorem c1_conservation_amended_witness :
    realCount (pauseResume baseState) = realCount baseState ∧
    (createDeck { jumpIn := false, shieldCards := false, sharePain := false,
                  startingHandSize := 7 }).length = 108 :=
  ⟨(c1_conservation_amended idShuffle (fun _ => rfl) baseState (pauseResume baseState)
      (Step.animationDone baseState)).1,
   (c1_conservation_amended idShuffle (fun _ => rfl) baseState (pauseResume baseState)
      (Step.animationDone baseState)).2 _⟩

/-- The rule configuration a host can set pre-start: no variants, a starting
hand of 26 cards (`updateGameRules` accepts arbitrary overrides). -/
def c1rules : GameRules :=
  { jumpIn := false, shieldCards := false, sharePain := false, startingHandSize := 26 }

/-- Four seated human players with empty rosters' hands. -/
def c1humans : List Player :=
  [⟨"player_0", "A", false, []⟩, ⟨"player_1", "B", false, []⟩,
   ⟨"player_2", "C", false, []⟩, ⟨"player_3", "D", false, []⟩]

/-- The round as dealt with the identity shuffle: 26 cards each, a red 3
flipped, and three cards left in the deck. -/
def c1s0 : GameState := (initializeGame idShuffle 5 c1rules c1humans).getD baseState

/-- One full idle turn: the turn timer fires (the current seat draws one
penalty card) and the animation lock is then released, advancing the turn. -/
def c1next (gs : GameState) : GameState :=
  pauseResume ((handleTurnTimeout idShuffle gs).stateOf gs)

/-- The round after three idle turns: the deck is empty, the discard pile
holds one card. -/
def c1s3 : GameState := c1next (c1next (c1next c1s0))

/-- The state after the fourth timeout fires: its penalty draw pops
`undefined` from the empty, unrefillable deck and pushes it into a hand. -/
def c1bad : GameState := (handleTurnTimeout idShuffle c1s3).stateOf c1s3

theorem c1_reach_next (gs : GameState) (h : Reachable idShuffle c1rules gs) :
    Reachable idShuffle c1rules (c1next gs) :=
  Reachable.step _ _ (Reachable.step _ _ h (Step.timeout gs)) (Step.animationDone _)

set_option maxRecDepth 1000000 in
/-- Counterexample to C1 as stated: a reachable, still-active round in which
`deck.length + discard.length + Σ hand.length` is 109 while the fixed card
population of the enabled variant set is 108 (the turn-timeout draw appended
an `undefined` entry), so the equality is not preserved by every operation. -/
theorem c1_counterexample :
    Reachable idShuffle c1rules c1bad ∧ c1bad.isGameOver = false ∧
    totalLen c1bad = 109 ∧ population c1rules = 108 ∧ totalLen c1s3 = 108 := by
  refine ⟨?_, by decide, by decide, by decide, by decide⟩
  have h0 : Reachable idShuffle c1rules c1s0 :=
    Reachable.base 5 c1humans c1s0 (by decide)
  exact Reachable.step _ _ (c1_reach_next _ (c1_reach_next _ (c1_reach_next _ h0)))
    (Step.timeout c1s3)

/-! ## Stability of the penalty stack kind -/

/-- Invariant tying an active stack to the discard top: while a stack is
active its kind is `drawTwo` or `wildDrawFour` and the top of the discard
pile is a card of exactly that kind. -/
def StackInv (gs : GameState) : Prop :=
  gs.isStackActive = true →
    ∃ t, gs.stackType = some t ∧ (t = CType.drawTwo ∨ t = CType.wildDrawFour) ∧
      (gs.discardPile.getLast?).map Card.ctype = some t

/-- How the stack may evolve across one step while staying active: the kind
is unchanged and the count either stays or grows by exactly the kind's
increment. -/
def stackDelta (gs gs' : GameState) : Prop :=
  gs'.stackType = gs.stackType ∧
  (gs'.stackPenalty = gs.stackPenalty ∨
   (gs.stackType = some CType.drawTwo ∧ gs'.stackPenalty = gs.stackPenalty + 2) ∨
   (gs.stackType = some CType.wildDrawFour ∧ gs'.stackPenalty = gs.stackPenalty + 4))

theorem stackDelta_same (gs gs' : GameState) (ht : gs'.stackType = gs.stackType)
    (hp : gs'.stackPenalty = gs.stackPenalty) : stackDelta gs gs' :=
  ⟨ht, Or.inl hp⟩

theorem stackInv_of_fields (gs gs' : GameState)
    (ha : gs'.isStackActive = gs.isStackActive) (ht : gs'.stackType = gs.stackType)
    (hd : gs'.discardPile.getLast? = gs.discardPile.getLast?) (hinv : StackInv gs) :
    StackInv gs' := by
  intro hact
  rw [ha] at hact
  obtain ⟨t, h1, h2, h3⟩ := hinv hact
  exact ⟨t, ht.trans h1, h2, hd ▸ h3⟩

theorem refill_getLast (shuffle : List Card → List Card) (gs : GameState) :
    (refillDeckFromDiscardPile shuffle gs).discardPile.getLast? =
      gs.discardPile.getLast? := by
  rw [refillDeckFromDiscardPile]
  split
  · rfl
  · cases hg : gs.discardPile.getLast? with
    | none => simp [hg]
    | some t => simp [hg]

theorem drawCardFromDeck_getLast (shuffle : List Card → List Card) (gs : GameState) :
    ((drawCardFromDeck shuffle gs).2).discardPile.getLast? =
      gs.discardPile.getLast? := by
  rw [drawCardFromDeck]
  by_cases h : (gs.deck.length == 0) = true
  · simp only [h, if_true]
    cases hg : (refillDeckFromDiscardPile shuffle gs).deck.getLast? with
    | none => simp only [hg]; exact refill_getLast shuffle gs
    | some c =>
      simp only [hg]
      exact refill_getLast shuffle gs
  · have hb : (gs.deck.length == 0) = false := by simpa using h
    simp only [hb, Bool.false_eq_true, if_false]
    cases hg : gs.deck.getLast? with
    | none => simp [hg]
    | some c => simp [hg]

theorem drawCardsTo_getLast (shuffle : List Card → List Card) (tid : String) :
    ∀ (n : Nat) (gs : GameState),
      (drawCardsTo shuffle n gs tid).1.discardPile.getLast? =
        gs.discardPile.getLast? := by
  intro n
  induction n with
  | zero => intro gs; rfl
  | succ n ih =>
    intro gs
    rw [drawCardsTo]
    dsimp only
    rw [ih]
    show (pushHand (drawCardFromDeck shuffle gs).2 tid
        (drawCardFromDeck shuffle gs).1).discardPile.getLast? = _
    rw [pushHand_discard]
    exact drawCardFromDeck_getLast shuffle gs

theorem drawCardsPair_getLast (shuffle : List Card → List Card) (tid pid : String) :
    ∀ (n : Nat) (gs : GameState),
      (drawCardsPair shuffle n gs tid pid).1.discardPile.getLast? =
        gs.discardPile.getLast? := by
  intro n
  induction n with
  | zero => intro gs; rfl
  | succ n ih =>
    intro gs
    rw [drawCardsPair]
    dsimp only
    rw [ih]
    show (pushHand (pushHand (drawCardFromDeck shuffle (drawCardFromDeck shuffle gs).2).2
        tid (drawCardFromDeck shuffle gs).1) pid
        (drawCardFromDeck shuffle (drawCardFromDeck shuffle gs).2).1).discardPile.getLast? = _
    rw [pushHand_discard, pushHand_discard, drawCardFromDeck_getLast,
      drawCardFromDeck_getLast]

theorem applyPenaltyCards_getLast (shuffle : List Card → List Card) (gs : GameState)
    (tid : String) (n : Nat) (reason : String) :
    (applyPenaltyCards shuffle gs tid n reason).2.discardPile.getLast? =
      gs.discardPile.getLast? := by
  rw [applyPenaltyCards]
  cases ht : findPlayer gs tid with
  | none => rfl
  | some t =>
    by_cases hcond : (gs.gameRules.sharePain && (reason == "stack" || reason == "shield")) = true
    · rw [if_pos hcond]
      cases hpartner : findSharePainPartner gs tid with
      | none => simpa using drawCardsTo_getLast shuffle tid n gs
      | some partnerId =>
        cases hpp : findPlayer gs partnerId with
        | none =>
          simp only [hpp]
          simpa using drawCardsTo_getLast shuffle tid n gs
        | some pp =>
          simp only [hpp]
          simpa using drawCardsPair_getLast shuffle tid partnerId n gs
    · rw [if_neg hcond]
      simpa using drawCardsTo_getLast shuffle tid n gs

/-- During an active stack, a playable card matches the stack kind or is a
shield under the shield variant. -/
theorem isCardPlayable_stack_elim (gs : GameState) (card top : Card) (hsz : Nat)
    (hact : gs.isStackActive = true)
    (hplay : isCardPlayable gs card (some top) hsz = true) :
    (gs.stackType = some CType.drawTwo ∧ card.ctype = CType.drawTwo) ∨
    (gs.stackType = some CType.wildDrawFour ∧ card.ctype = CType.wildDrawFour) ∨
    (gs.gameRules.shieldCards = true ∧ card.ctype = CType.shield) := by
  rw [isCardPlayable] at hplay
  dsimp only at hplay
  split at hplay
  · cases hplay
  · split at hplay
    · cases hplay
    · cases hb1 : (gs.stackType == some CType.drawTwo && card.ctype == CType.drawTwo) with
      | true =>
        rw [Bool.and_eq_true, beq_iff_eq, beq_iff_eq] at hb1
        exact Or.inl hb1
      | false =>
        cases hb2 : (gs.stackType == some CType.wildDrawFour &&
            card.ctype == CType.wildDrawFour) with
        | true =>
          rw [Bool.and_eq_true, beq_iff_eq, beq_iff_eq] at hb2
          exact Or.inr (Or.inl hb2)
        | false =>
          cases hb3 : (gs.gameRules.shieldCards && card.ctype == CType.shield) with
          | true =>
            rw [Bool.and_eq_true, beq_iff_eq] at hb3
            exact Or.inr (Or.inr hb3)
          | false =>
            exfalso
            simp only [hact, hb1, hb2, hb3, if_true, Bool.false_eq_true, if_false] at hplay

/-- `applyCardEffect` never touches the discard pile. -/
theorem applyCardEffect_discard (gs : GameState) (card : Card) :
    (applyCardEffect gs card).discardPile = gs.discardPile := by
  obtain ⟨sk, d, act, ty, pen, hshape⟩ := applyCardEffect_shape gs card
  rw [hshape]

/-- Playing a card of the active stack's kind onto the stack keeps it active,
keeps the kind, and adds exactly the kind's increment. -/
theorem applyCardEffect_same_kind (gs : GameState) (card : Card) (t : CType)
    (hact : gs.isStackActive = true) (hty : gs.stackType = some t)
    (hcard : card.ctype = t) (ht : t = CType.drawTwo ∨ t = CType.wildDrawFour) :
    (applyCardEffect gs card).isStackActive = true ∧
    (applyCardEffect gs card).stackType = some t ∧
    ((t = CType.drawTwo ∧ (applyCardEffect gs card).stackPenalty = gs.stackPenalty + 2) ∨
     (t = CType.wildDrawFour ∧ (applyCardEffect gs card).stackPenalty = gs.stackPenalty + 4)) := by
  rcases ht with h | h <;> subst h <;>
    simp [applyCardEffect, hcard, hact, hty]

/-- With no active stack, a card effect either leaves the stack inactive or
starts a fresh stack of exactly the played card's kind. -/
theorem applyCardEffect_inactive (gs : GameState) (card : Card)
    (h : gs.isStackActive = false) :
    (applyCardEffect gs card).isStackActive = gs.isStackActive ∧
      (applyCardEffect gs card).stackType = gs.stackType ∨
    ((applyCardEffect gs card).isStackActive = true ∧
      (applyCardEffect gs card).stackType = some card.ctype ∧
      (card.ctype = CType.drawTwo ∨ card.ctype = CType.wildDrawFour)) := by
  obtain ⟨cc, cv, ct, cd⟩ := card
  cases ct <;> simp [applyCardEffect, h]
  case reverse => split <;> simp

/-- A jump-in accepted by `canJumpIn` offers a card whose kind equals the
discard top's kind. -/
theorem canJumpIn_true_types (gs : GameState) (w : Bool) (pid : String) (ci : Nat)
    (player : Player) (card : Card)
    (h : canJumpIn gs w pid ci = some true)
    (hf : findPlayer gs pid = some player)
    (hcard : player.hand.get? ci = some (some card)) :
    ∃ top, gs.discardPile.getLast? = some top ∧ card.ctype = top.ctype := by
  rw [canJumpIn] at h
  split at h
  · cases h
  · rw [hf] at h
    dsimp only at h
    split at h
    · cases h
    · rw [hcard] at h
      cases htop : gs.discardPile.getLast? with
      | none => rw [htop] at h; cases h
      | some top =>
        rw [htop] at h
        injection h with h
        rw [Bool.and_eq_true, Bool.and_eq_true] at h
        exact ⟨top, rfl, by simpa using h.2⟩

/-- `nextTurn` touches only the UNO record, the current index, the skip flag
and the has-drawn flag. -/
theorem nextTurn_shape (gs : GameState) :
    ∃ su cpi sk, nextTurn gs =
      { gs with showedUno := su, currentPlayerIndex := cpi, skipNextPlayer := sk,
                playerHasDrawnThisTurn := false } := by
  rw [nextTurn]
  dsimp only
  split <;> exact ⟨_, _, _, rfl⟩

/-- `pauseResume` touches only the animation lock plus `nextTurn`'s fields. -/
theorem pauseResume_shape (gs : GameState) :
    ∃ su cpi sk hd, pauseResume gs =
      { gs with showedUno := su, currentPlayerIndex := cpi, skipNextPlayer := sk,
                playerHasDrawnThisTurn := hd, isActionPaused := false } := by
  rw [pauseResume]
  dsimp only
  split
  · exact ⟨_, _, _, _, rfl⟩
  · obtain ⟨su, cpi, sk, hshape⟩ := nextTurn_shape
      { gs with isActionPaused := false }
    rw [hshape]
    exact ⟨su, cpi, sk, false, rfl⟩

/-- The combined stack obligation of one transition: the invariant is
preserved and, across an active-to-active step, the kind is stable and the
count grows only additively. -/
def StackOk (gs gs' : GameState) : Prop :=
  StackInv gs' ∧
  (gs.isStackActive = true → gs'.isStackActive = true → stackDelta gs gs')

theorem stackOk_of_fields (gs gs' : GameState)
    (ha : gs'.isStackActive = gs.isStackActive) (ht : gs'.stackType = gs.stackType)
    (hp : gs'.stackPenalty = gs.stackPenalty)
    (hd : gs'.discardPile.getLast? = gs.discardPile.getLast?) (hinv : StackInv gs) :
    StackOk gs gs' :=
  ⟨stackInv_of_fields gs gs' ha ht hd hinv, fun _ _ => stackDelta_same _ _ ht hp⟩

theorem stackOk_cleared (gs gs' : GameState) (ha : gs'.isStackActive = false) :
    StackOk gs gs' :=
  ⟨fun hact => absurd (ha ▸ hact) (by simp), fun _ hact => absurd (ha ▸ hact) (by simp)⟩

/-- Re-applying the discard top's effect (the `selectColor` path) preserves
the stack obligations. -/
theorem stackOk_effect_top (gs : GameState) (top : Card)
    (htop : gs.discardPile.getLast? = some top) (hinv : StackInv gs) :
    StackOk gs (applyCardEffect gs top) := by
  constructor
  · intro hact'
    by_cases hact : gs.isStackActive = true
    · obtain ⟨t, hty, htd, htc⟩ := hinv hact
      rw [htop, Option.map_some'] at htc
      injection htc with htc
      obtain ⟨h1, h2, h3⟩ := applyCardEffect_same_kind gs top t hact hty htc htd
      refine ⟨t, h2, htd, ?_⟩
      rw [applyCardEffect_discard, htop, Option.map_some', htc]
    · have hact0 : gs.isStackActive = false := by simpa using hact
      rcases applyCardEffect_inactive gs top hact0 with ⟨ha, _⟩ | ⟨_, ht, hkind⟩
      · rw [ha, hact0] at hact'
        cases hact'
      · refine ⟨top.ctype, ht, hkind, ?_⟩
        rw [applyCardEffect_discard, htop, Option.map_some']
  · intro hact hact'
    obtain ⟨t, hty, htd, htc⟩ := hinv hact
    rw [htop, Option.map_some'] at htc
    injection htc with htc
    obtain ⟨h1, h2, h3⟩ := applyCardEffect_same_kind gs top t hact hty htc htd
    refine ⟨h2.trans hty.symm, ?_⟩
    rcases h3 with ⟨he, hp⟩ | ⟨he, hp⟩
    · exact Or.inr (Or.inl ⟨he ▸ hty, hp⟩)
    · exact Or.inr (Or.inr ⟨he ▸ hty, hp⟩)

theorem stack_pauseResume (gs : GameState) (hinv : StackInv gs) :
    StackOk gs (pauseResume gs) := by
  obtain ⟨su, cpi, sk, hd, hshape⟩ := pauseResume_shape gs
  rw [hshape]
  exact stackOk_of_fields _ _ rfl rfl rfl rfl hinv

theorem stack_selectColor (gs : GameState) (pid : String) (c : Color) (hinv : StackInv gs) :
    StackOk gs ((selectColor gs pid c).stateOf gs) := by
  rw [selectColor]
  split
  · exact stackOk_of_fields _ _ rfl rfl rfl rfl hinv
  · cases hcp : gs.players.get? gs.currentPlayerIndex with
    | none => exact stackOk_of_fields _ _ rfl rfl rfl rfl hinv
    | some cp =>
      dsimp only
      split
      · exact stackOk_of_fields _ _ rfl rfl rfl rfl hinv
      · cases hg : ({ gs with
            waitingForColorSelection := false,
            currentColorInPlay := some c } : GameState).discardPile.getLast? with
        | none =>
          simp only [hg, Outcome.stateOf]
          exact stackOk_of_fields _ _ rfl rfl rfl rfl hinv
        | some top =>
          simp only [hg, Outcome.stateOf]
          have hinv1 : StackInv ({ gs with
              waitingForColorSelection := false,
              currentColorInPlay := some c } : GameState) :=
            stackInv_of_fields _ _ rfl rfl rfl hinv
          have h := stackOk_effect_top _ top hg hinv1
          refine ⟨stackInv_of_fields _ _ rfl rfl rfl h.1, ?_⟩
          intro hact hact'
          exact h.2 hact hact'

/-- The stack bookkeeping fields (`isStackActive`, `stackType`,
`stackPenalty`) of `gs'` agree with those of `gs`. -/
def SameStack (gs gs' : GameState) : Prop :=
  gs'.isStackActive = gs.isStackActive ∧ gs'.stackType = gs.stackType ∧
    gs'.stackPenalty = gs.stackPenalty

theorem refill_sameStack (shuffle : List Card → List Card) (gs : GameState) :
    SameStack gs (refillDeckFromDiscardPile shuffle gs) := by
  rw [refillDeckFromDiscardPile]
  split
  · exact ⟨rfl, rfl, rfl⟩
  · cases hg : gs.discardPile.getLast? with
    | none => simp only [hg]; exact ⟨rfl, rfl, rfl⟩
    | some t => simp only [hg]; exact ⟨rfl, rfl, rfl⟩

theorem drawCardFromDeck_sameStack (shuffle : List Card → List Card) (gs : GameState) :
    SameStack gs (drawCardFromDeck shuffle gs).2 := by
  rw [drawCardFromDeck]
  by_cases h : (gs.deck.length == 0) = true
  · simp only [h, if_true]
    cases hg : (refillDeckFromDiscardPile shuffle gs).deck.getLast? with
    | none => simp only [hg]; exact refill_sameStack shuffle gs
    | some c => simp only [hg]; exact refill_sameStack shuffle gs
  · have hb : (gs.deck.length == 0) = false := by simpa using h
    simp only [hb, Bool.false_eq_true, if_false]
    cases hg : gs.deck.getLast? with
    | none => simp only [hg]; exact ⟨rfl, rfl, rfl⟩
    | some c => simp only [hg]; exact ⟨rfl, rfl, rfl⟩

theorem drawCardsTo_sameStack (shuffle : List Card → List Card) (tid : String) :
    ∀ (n : Nat) (gs : GameState), SameStack gs (drawCardsTo shuffle n gs tid).1 := by
  intro n
  induction n with
  | zero => intro gs; exact ⟨rfl, rfl, rfl⟩
  | succ n ih =>
    intro gs
    rw [drawCardsTo]
    dsimp only
    obtain ⟨a1, a2, a3⟩ :=
      ih (pushHand (drawCardFromDeck shuffle gs).2 tid (drawCardFromDeck shuffle gs).1)
    obtain ⟨b1, b2, b3⟩ := drawCardFromDeck_sameStack shuffle gs
    exact ⟨a1.trans b1, a2.trans b2, a3.trans b3⟩

theorem drawCardsPair_sameStack (shuffle : List Card → List Card) (tid pid : String) :
    ∀ (n : Nat) (gs : GameState), SameStack gs (drawCardsPair shuffle n gs tid pid).1 := by
  intro n
  induction n with
  | zero => intro gs; exact ⟨rfl, rfl, rfl⟩
  | succ n ih =>
    intro gs
    rw [drawCardsPair]
    dsimp only
    obtain ⟨a1, a2, a3⟩ := ih (pushHand (pushHand
      (drawCardFromDeck shuffle (drawCardFromDeck shuffle gs).2).2
      tid (drawCardFromDeck shuffle gs).1) pid
      (drawCardFromDeck shuffle (drawCardFromDeck shuffle gs).2).1)
    obtain ⟨b1, b2, b3⟩ := drawCardFromDeck_sameStack shuffle gs
    obtain ⟨c1, c2, c3⟩ := drawCardFromDeck_sameStack shuffle (drawCardFromDeck shuffle gs).2
    exact ⟨a1.trans (c1.trans b1), a2.trans (c2.trans b2), a3.trans (c3.trans b3)⟩

theorem applyPenaltyCards_sameStack (shuffle : List Card → List Card) (gs : GameState)
    (tid : String) (n : Nat) (reason : String) :
    SameStack gs (applyPenaltyCards shuffle gs tid n reason).2 := by
  rw [applyPenaltyCards]
  cases ht : findPlayer gs tid with
  | none => exact ⟨rfl, rfl, rfl⟩
  | some t =>
    by_cases hcond : (gs.gameRules.sharePain && (reason == "stack" || reason == "shield")) = true
    · rw [if_pos hcond]
      cases hpartner : findSharePainPartner gs tid with
      | none => simpa using drawCardsTo_sameStack shuffle tid n gs
      | some partnerId =>
        cases hpp : findPlayer gs partnerId with
        | none =>
          simp only [hpp]
          simpa using drawCardsTo_sameStack shuffle tid n gs
        | some pp =>
          simp only [hpp]
          simpa using drawCardsPair_sameStack shuffle tid partnerId n gs
    · rw [if_neg hcond]
      simpa using drawCardsTo_sameStack shuffle tid n gs

/-- A state with no active stack satisfies the invariant vacuously. -/
theorem stackInv_of_inactive (gs : GameState) (h : gs.isStackActive = false) :
    StackInv gs := by
  intro hact
  rw [h] at hact
  cases hact

/-- A step from a stack-inactive state meets the obligation as soon as the
target satisfies the invariant. -/
theorem stackOk_of_inactive_src (gs gs' : GameState) (h : gs.isStackActive = false)
    (hinv' : StackInv gs') : StackOk gs gs' := by
  refine ⟨hinv', fun hact _ => ?_⟩
  rw [h] at hact
  cases hact

theorem stack_handleTurnTimeout (shuffle : List Card → List Card) (gs : GameState)
    (hinv : StackInv gs) : StackOk gs ((handleTurnTimeout shuffle gs).stateOf gs) := by
  rw [handleTurnTimeout]
  cases hcp : gs.players.get? gs.currentPlayerIndex with
  | none => exact stackOk_of_fields _ _ rfl rfl rfl rfl hinv
  | some cp =>
    dsimp only
    split
    · split
      · split
        · exact stackOk_cleared _ _ rfl
        · exact stackOk_cleared _ _ rfl
      · obtain ⟨h1, h2, h3⟩ := applyPenaltyCards_sameStack shuffle gs cp.id 1 "timeout"
        have hd := applyPenaltyCards_getLast shuffle gs cp.id 1 "timeout"
        split
        · exact stackOk_of_fields _ _ h1 h2 h3 hd hinv
        · exact stackOk_of_fields _ _ h1 h2 h3 hd hinv
    · exact stackOk_of_fields _ _ rfl rfl rfl rfl hinv

theorem stackInv_timeout_mapped (shuffle : List Card → List Card) (g0 gs : GameState)
    (h0 : StackInv g0) (h : StackInv gs) :
    StackInv ((match handleTurnTimeout shuffle g0 with
      | .ok _ s => Outcome.ok { timeoutFlag := true } s
      | .err e => .err e
      | .crash s => .crash s).stateOf gs) := by
  have htm := (stack_handleTurnTimeout shuffle g0 h0).1
  cases htt : handleTurnTimeout shuffle g0 with
  | ok r s =>
    rw [htt] at htm
    simpa only [Outcome.stateOf] using htm
  | err e => simpa only [Outcome.stateOf] using h
  | crash s =>
    rw [htt] at htm
    simpa only [Outcome.stateOf] using htm

theorem stack_drawCard (shuffle : List Card → List Card) (gs : GameState)
    (pid : String) (te : Bool) (hinv : StackInv gs) :
    StackOk gs ((drawCard shuffle gs pid te).stateOf gs) := by
  rw [drawCard]
  cases hp : findPlayer gs pid with
  | none => exact stackOk_of_fields _ _ rfl rfl rfl rfl hinv
  | some player =>
    dsimp only
    split
    · exact stackOk_of_fields _ _ rfl rfl rfl rfl hinv
    · by_cases hact : gs.isStackActive = true
      · rw [if_pos hact]
        split
        · exact stackOk_cleared _ _ rfl
        · exact stackOk_cleared _ _ rfl
      · have hact0 : gs.isStackActive = false := by simpa using hact
        rw [if_neg hact]
        have hg2 : ({ pushHand (drawCardFromDeck shuffle gs).2 pid
            (drawCardFromDeck shuffle gs).1 with
              playerHasDrawnThisTurn := true } : GameState).isStackActive = false :=
          ((drawCardFromDeck_sameStack shuffle gs).1).trans hact0
        have hinv2 := stackInv_of_inactive _ hg2
        split
        · -- drawn card is `undefined`
          split
          · split
            · exact stackOk_of_inactive_src _ _ hact0
                (stackInv_timeout_mapped shuffle _ gs hinv2 hinv)
            · exact stackOk_of_inactive_src _ _ hact0 hinv2
          · split
            · exact stackOk_of_inactive_src _ _ hact0 hinv2
            · exact stackOk_of_inactive_src _ _ hact0 hinv2
        · split
          · split
            · exact stackOk_of_inactive_src _ _ hact0
                (stackInv_timeout_mapped shuffle _ gs hinv2 hinv)
            · exact stackOk_of_inactive_src _ _ hact0 hinv2
          · exact stackOk_of_inactive_src _ _ hact0 hinv2

theorem stack_playSharePainCard (gs : GameState) (pid : String) (ci : Nat)
    (tid : String) (hinv : StackInv gs) :
    StackOk gs ((playSharePainCard gs pid ci tid).stateOf gs) := by
  rw [playSharePainCard]
  cases hp : findPlayer gs pid <;> cases ht : findPlayer gs tid <;> simp only
  case none.none => exact stackOk_of_fields _ _ rfl rfl rfl rfl hinv
  case none.some => exact stackOk_of_fields _ _ rfl rfl rfl rfl hinv
  case some.none => exact stackOk_of_fields _ _ rfl rfl rfl rfl hinv
  case some.some player _ =>
    split
    · exact stackOk_of_fields _ _ rfl rfl rfl rfl hinv
    · cases hc : player.hand.get? ci with
      | none => exact stackOk_of_fields _ _ rfl rfl rfl rfl hinv
      | some entry =>
        cases entry with
        | none => exact stackOk_of_fields _ _ rfl rfl rfl rfl hinv
        | some card =>
          simp only
          split
          · exact stackOk_of_fields _ _ rfl rfl rfl rfl hinv
          · next hsp =>
            have hspc : card.ctype = CType.sharePain := by simpa using hsp
            split
            · exact stackOk_of_fields _ _ rfl rfl rfl rfl hinv
            · next hplay =>
              have hplay2 : isCardPlayable gs card gs.discardPile.getLast?
                  player.hand.length = true := by simpa using hplay
              have hact0 : gs.isStackActive = false := by
                by_contra hone
                have hact : gs.isStackActive = true := by simpa using hone
                obtain ⟨t, hty, htk, htc⟩ := hinv hact
                cases hg : gs.discardPile.getLast? with
                | none => rw [hg] at htc; cases htc
                | some top =>
                  rw [hg] at hplay2
                  rcases isCardPlayable_stack_elim gs card top player.hand.length hact
                      hplay2 with ⟨_, hck⟩ | ⟨_, hck⟩ | ⟨_, hck⟩ <;>
                    rw [hspc] at hck <;> cases hck
              split <;> split <;> exact stackOk_cleared _ _ hact0

/-- Appending a card of the stack's kind to the discard pile while leaving the
stack fields alone preserves the obligations. -/
theorem stackOk_append_same_kind (gs gs' : GameState)
    (ha : gs'.isStackActive = gs.isStackActive) (hty : gs'.stackType = gs.stackType)
    (hp : gs'.stackPenalty = gs.stackPenalty) (card top : Card)
    (htop : gs.discardPile.getLast? = some top) (hct : card.ctype = top.ctype)
    (hd : gs'.discardPile.getLast? = some card) (hinv : StackInv gs) : StackOk gs gs' := by
  refine ⟨?_, fun _ _ => stackDelta_same _ _ hty hp⟩
  intro hact'
  rw [ha] at hact'
  obtain ⟨t, h1, h2, h3⟩ := hinv hact'
  rw [htop, Option.map_some'] at h3
  injection h3 with h3
  exact ⟨t, hty.trans h1, h2, by rw [hd, Option.map_some', hct, h3]⟩

/-- Applying the effect of a newly appended card that matches the previous
discard top's kind (the jump-in path) preserves the obligations. -/
theorem stackOk_effect_newtop (gs gsMid : GameState) (card top : Card)
    (ha : gsMid.isStackActive = gs.isStackActive) (hty : gsMid.stackType = gs.stackType)
    (hp : gsMid.stackPenalty = gs.stackPenalty)
    (htop : gs.discardPile.getLast? = some top) (hct : card.ctype = top.ctype)
    (hd : gsMid.discardPile.getLast? = some card) (hinv : StackInv gs) :
    StackOk gs (applyCardEffect gsMid card) := by
  have hmid : StackInv gsMid :=
    (stackOk_append_same_kind gs gsMid ha hty hp card top htop hct hd hinv).1
  constructor
  · intro hact'
    by_cases hact : gsMid.isStackActive = true
    · obtain ⟨t, h1, h2, h3⟩ := hmid hact
      rw [hd, Option.map_some'] at h3
      injection h3 with h3
      obtain ⟨e1, e2, e3⟩ := applyCardEffect_same_kind gsMid card t hact h1 h3 h2
      exact ⟨t, e2, h2, by rw [applyCardEffect_discard, hd, Option.map_some', h3]⟩
    · have h0 : gsMid.isStackActive = false := by simpa using hact
      rcases applyCardEffect_inactive gsMid card h0 with ⟨e1, e2⟩ | ⟨e1, e2, e3⟩
      · rw [e1, h0] at hact'
        cases hact'
      · exact ⟨card.ctype, e2, e3, by rw [applyCardEffect_discard, hd, Option.map_some']⟩
  · intro hact hact'
    have hactm : gsMid.isStackActive = true := ha.trans hact
    obtain ⟨t, h1, h2, h3⟩ := hmid hactm
    rw [hd, Option.map_some'] at h3
    injection h3 with h3
    obtain ⟨e1, e2, e3⟩ := applyCardEffect_same_kind gsMid card t hactm h1 h3 h2
    refine ⟨e2.trans (hty.symm.trans h1).symm, ?_⟩
    rcases e3 with ⟨hk, hpen⟩ | ⟨hk, hpen⟩
    · exact Or.inr (Or.inl ⟨by rw [← hty, h1, hk], by rw [hpen, hp]⟩)
    · exact Or.inr (Or.inr ⟨by rw [← hty, h1, hk], by rw [hpen, hp]⟩)

theorem stack_jumpIn (gs : GameState) (w : Bool) (pid : String) (ci : Nat)
    (hinv : StackInv gs) : StackOk gs ((jumpIn gs w pid ci).stateOf gs) := by
  rw [jumpIn]
  cases hcj : canJumpIn gs w pid ci with
  | none => exact stackOk_of_fields _ _ rfl rfl rfl rfl hinv
  | some b =>
    cases b with
    | false => exact stackOk_of_fields _ _ rfl rfl rfl rfl hinv
    | true =>
      simp only
      cases hp : findPlayer gs pid with
      | none => exact stackOk_of_fields _ _ rfl rfl rfl rfl hinv
      | some player =>
        cases hpi : findPlayerIdx gs pid with
        | none => exact stackOk_of_fields _ _ rfl rfl rfl rfl hinv
        | some playerIndex =>
          simp only
          cases hc : player.hand.get? ci with
          | none => exact stackOk_of_fields _ _ rfl rfl rfl rfl hinv
          | some entry =>
            cases entry with
            | none => exact stackOk_of_fields _ _ rfl rfl rfl rfl hinv
            | some card =>
              simp only
              obtain ⟨top, htop, hct⟩ :=
                canJumpIn_true_types gs w pid ci player card hcj hp hc
              split
              · split
                · exact stackOk_append_same_kind _ _ rfl rfl rfl card top htop hct
                    (List.getLast?_concat _) hinv
                · exact stackOk_append_same_kind _ _ rfl rfl rfl card top htop hct
                    (List.getLast?_concat _) hinv
              · split
                · split
                  · exact stackOk_append_same_kind _ _ rfl rfl rfl card top htop hct
                      (List.getLast?_concat _) hinv
                  · exact stackOk_append_same_kind _ _ rfl rfl rfl card top htop hct
                      (List.getLast?_concat _) hinv
                · split
                  · exact stackOk_effect_newtop _ _ card top rfl rfl rfl htop hct
                      (List.getLast?_concat _) hinv
                  · exact stackOk_effect_newtop _ _ card top rfl rfl rfl htop hct
                      (List.getLast?_concat _) hinv

/-- Appending any card and applying its effect from a stack-inactive state
meets the obligation. -/
theorem stackOk_effect_inactive_push (gs gsMid : GameState) (card : Card)
    (ha : gsMid.isStackActive = gs.isStackActive) (h0 : gs.isStackActive = false)
    (hd : gsMid.discardPile.getLast? = some card) :
    StackOk gs (applyCardEffect gsMid card) := by
  have hmid0 : gsMid.isStackActive = false := ha.trans h0
  refine ⟨?_, fun hact _ => by rw [h0] at hact; cases hact⟩
  intro hact'
  rcases applyCardEffect_inactive gsMid card hmid0 with ⟨e1, e2⟩ | ⟨e1, e2, e3⟩
  · rw [e1, hmid0] at hact'
    cases hact'
  · exact ⟨card.ctype, e2, e3, by rw [applyCardEffect_discard, hd, Option.map_some']⟩

theorem stack_playCardShield (shuffle : List Card → List Card) (gs : GameState)
    (pid : String) (ci : Nat) (card : Card) (hinv : StackInv gs) :
    StackOk gs ((playCardShield shuffle gs pid ci card).stateOf gs) := by
  rw [playCardShield]
  cases hpv : gs.players.get? (getPreviousPlayerIndex gs) with
  | none => exact stackOk_of_fields _ _ rfl rfl rfl rfl hinv
  | some prev =>
    dsimp only
    split
    · exact stackOk_cleared _ _ rfl
    · exact stackOk_cleared _ _ rfl

theorem stack_playCardNormal (gs : GameState) (player : Player) (pid : String)
    (ci : Nat) (card : Card) (hinv : StackInv gs)
    (hplay : isCardPlayable gs card gs.discardPile.getLast? player.hand.length = true)
    (hsha : ¬((card.ctype == CType.shield && gs.isStackActive) = true)) :
    StackOk gs ((playCardNormal gs player pid ci card).stateOf gs) := by
  rw [playCardNormal]
  dsimp only
  by_cases hact : gs.isStackActive = true
  · obtain ⟨t, hty, htk, htc⟩ := hinv hact
    cases hg : gs.discardPile.getLast? with
    | none =>
      rw [hg] at htc
      simp at htc
    | some top =>
      rw [hg, Option.map_some'] at htc
      injection htc with htc
      rw [hg] at hplay
      have hct : card.ctype = top.ctype := by
        rcases isCardPlayable_stack_elim gs card top player.hand.length hact hplay with
          ⟨h1, h2⟩ | ⟨h1, h2⟩ | ⟨h1, h2⟩
        · have ht2 : t = CType.drawTwo := by
            have := hty.symm.trans h1
            injection this
          rw [h2, htc, ht2]
        · have ht2 : t = CType.wildDrawFour := by
            have := hty.symm.trans h1
            injection this
          rw [h2, htc, ht2]
        · exact absurd (by simp [h2, hact]) hsha
      repeat' split
      all_goals first
        | exact stackOk_append_same_kind _ _ rfl rfl rfl card top hg hct
            (List.getLast?_concat _) hinv
        | exact stackOk_effect_newtop _ _ card top rfl rfl rfl hg hct
            (List.getLast?_concat _) hinv
  · have hact0 : gs.isStackActive = false := by simpa using hact
    repeat' split
    all_goals first
      | exact stackOk_cleared _ _ hact0
      | exact stackOk_effect_inactive_push _ _ card rfl hact0 (List.getLast?_concat _)

theorem stack_playCard (shuffle : List Card → List Card) (gs : GameState)
    (pid : String) (ci : Nat) (hinv : StackInv gs) :
    StackOk gs ((playCard shuffle gs pid ci).stateOf gs) := by
  rw [playCard]
  cases hp : findPlayer gs pid with
  | none => exact stackOk_of_fields _ _ rfl rfl rfl rfl hinv
  | some player =>
    dsimp only
    split
    · exact stackOk_of_fields _ _ rfl rfl rfl rfl hinv
    · cases hc : player.hand.get? ci with
      | none => exact stackOk_of_fields _ _ rfl rfl rfl rfl hinv
      | some entry =>
        cases entry with
        | none =>
          cases htp : gs.discardPile.getLast? with
          | none => exact stackOk_of_fields _ _ rfl rfl rfl rfl hinv
          | some top =>
            dsimp only
            split
            · exact stackOk_of_fields _ _ rfl rfl rfl rfl hinv
            · exact stackOk_of_fields _ _ rfl rfl rfl rfl hinv
        | some card =>
          simp only
          split
          · exact stackOk_of_fields _ _ rfl rfl rfl rfl hinv
          · next hplay =>
            have hplay2 : isCardPlayable gs card gs.discardPile.getLast?
                player.hand.length = true := by simpa using hplay
            split
            · exact stack_playCardShield shuffle gs pid ci card hinv
            · next hsha => exact stack_playCardNormal gs player pid ci card hinv hplay2 hsha

theorem SameStack.trans {a b c : GameState} (h1 : SameStack a b) (h2 : SameStack b c) :
    SameStack a c :=
  ⟨h2.1.trans h1.1, h2.2.1.trans h1.2.1, h2.2.2.trans h1.2.2⟩

theorem modifyPlayerAt_sameStack (gs : GameState) (i : Nat) (f : Player → Player) :
    SameStack gs (modifyPlayerAt gs i f) := by
  rw [modifyPlayerAt]
  cases h : gs.players.get? i with
  | none => exact ⟨rfl, rfl, rfl⟩
  | some p => exact ⟨rfl, rfl, rfl⟩

theorem dealN_sameStack (shuffle : List Card → List Card) :
    ∀ (n : Nat) (gs : GameState) (i : Nat), SameStack gs (dealN shuffle n gs i) := by
  intro n
  induction n with
  | zero => intro gs i; exact ⟨rfl, rfl, rfl⟩
  | succ n ih =>
    intro gs i
    rw [dealN]
    dsimp only
    exact ((drawCardFromDeck_sameStack shuffle gs).trans
      (modifyPlayerAt_sameStack _ i _)).trans (ih _ i)

theorem foldl_sameStack (f : GameState → Nat → GameState)
    (hf : ∀ g i, SameStack g (f g i)) :
    ∀ (l : List Nat) (gs : GameState), SameStack gs (l.foldl f gs) := by
  intro l
  induction l with
  | nil => intro gs; exact ⟨rfl, rfl, rfl⟩
  | cons a l ih =>
    intro gs
    rw [List.foldl_cons]
    obtain ⟨a1, a2, a3⟩ := ih (f gs a)
    obtain ⟨b1, b2, b3⟩ := hf gs a
    exact ⟨a1.trans b1, a2.trans b2, a3.trans b3⟩

theorem dealCards_sameStack (shuffle : List Card → List Card) (gs : GameState) :
    SameStack gs (dealCards shuffle gs) := by
  rw [dealCards]
  refine foldl_sameStack _ (fun g i => ?_) _ gs
  exact (modifyPlayerAt_sameStack g i _).trans
    (dealN_sameStack shuffle g.gameRules.startingHandSize _ i)

theorem firstCardLoop_sameStack (shuffle : List Card → List Card) :
    ∀ (fuel : Nat) (gs : GameState) (card : Card) (gs' : GameState),
      firstCardLoop shuffle fuel gs = some (card, gs') → SameStack gs gs' := by
  intro fuel
  induction fuel with
  | zero => intro gs card gs' h; cases h
  | succ fuel ih =>
    intro gs card gs' h
    rw [firstCardLoop] at h
    dsimp only at h
    cases hc : (drawCardFromDeck shuffle gs).1 with
    | none => rw [hc] at h; cases h
    | some c0 =>
      rw [hc] at h
      dsimp only at h
      by_cases hn : (c0.ctype == CType.number) = true
      · rw [if_pos hn] at h
        injection h with h
        injection h with h1 h2
        subst h2
        exact drawCardFromDeck_sameStack shuffle gs
      · rw [if_neg hn] at h
        obtain ⟨a1, a2, a3⟩ := ih _ card gs' h
        obtain ⟨b1, b2, b3⟩ := drawCardFromDeck_sameStack shuffle gs
        exact ⟨a1.trans b1, a2.trans b2, a3.trans b3⟩

theorem initializeGame_stackInactive (shuffle : List Card → List Card) (fuel : Nat)
    (rules : GameRules) (roomPlayers : List Player) (gs : GameState)
    (h : initializeGame shuffle fuel rules roomPlayers = some gs) :
    gs.isStackActive = false := by
  rw [initializeGame] at h
  dsimp only at h
  cases hfc : firstCardLoop shuffle fuel (dealCards shuffle
      { players := roomPlayers ++ (List.range (4 - roomPlayers.length)).map (fun i =>
          { id := "computer_" ++ toString (i + 1), name := "電腦 " ++ toString (i + 1),
            isComputer := true, hand := [] : Player }),
        deck := shuffle (createDeck rules), discardPile := [],
        currentPlayerIndex := 0, currentColorInPlay := none, gameDirection := 1,
        isGameOver := false, stackPenalty := 0, stackType := none, isStackActive := false,
        showedUno := [], playerHasDrawnThisTurn := false, skipNextPlayer := false,
        gameRules := rules, sharePainBindings := [], waitingForColorSelection := false,
        isActionPaused := false }) with
  | none => rw [hfc] at h; cases h
  | some pr =>
    obtain ⟨card, gs3⟩ := pr
    rw [hfc] at h
    dsimp only at h
    injection h with h
    rw [← h]
    show gs3.isStackActive = false
    have hfs := firstCardLoop_sameStack shuffle fuel _ card gs3 hfc
    have hds := dealCards_sameStack shuffle
      { players := roomPlayers ++ (List.range (4 - roomPlayers.length)).map (fun i =>
          { id := "computer_" ++ toString (i + 1), name := "電腦 " ++ toString (i + 1),
            isComputer := true, hand := [] : Player }),
        deck := shuffle (createDeck rules), discardPile := [],
        currentPlayerIndex := 0, currentColorInPlay := none, gameDirection := 1,
        isGameOver := false, stackPenalty := 0, stackType := none, isStackActive := false,
        showedUno := [], playerHasDrawnThisTurn := false, skipNextPlayer := false,
        gameRules := rules, sharePainBindings := [], waitingForColorSelection := false,
        isActionPaused := false }
    exact hfs.1.trans hds.1

theorem stackInv_reachable (shuffle : List Card → List Card) (rules : GameRules)
    (gs : GameState) (h : Reachable shuffle rules gs) : StackInv gs := by
  induction h with
  | base fuel roomPlayers g h0 =>
    exact stackInv_of_inactive g
      (initializeGame_stackInactive shuffle fuel rules roomPlayers g h0)
  | step g g' hr hstep ih =>
    cases hstep with
    | playCard pid ci => exact (stack_playCard shuffle g pid ci ih).1
    | drawCard pid te => exact (stack_drawCard shuffle g pid te ih).1
    | jumpIn w pid ci => exact (stack_jumpIn g w pid ci ih).1
    | selectColor pid c => exact (stack_selectColor g pid c ih).1
    | playSharePain pid ci tid => exact (stack_playSharePainCard g pid ci tid ih).1
    | timeout => exact (stack_handleTurnTimeout shuffle g ih).1
    | animationDone => exact (stack_pauseResume g ih).1

/-- **C3.** While a penalty stack is active (`isStackActive` true), its kind
(`stackType`) never changes across any single observable operation that
leaves it active: for every reachable state, the kind is `drawTwo` or
`wildDrawFour`, the step preserves it, and the accumulated count either stays
or grows additively by exactly 2 for a `drawTwo` stack and 4 for a
`wildDrawFour` stack (so a drawTwo never stacks onto a wildDrawFour stack and
vice versa). -/
theorem c3_stack_kind_stable (shuffle : List Card → List Card) (rules : GameRules)
    (gs gs' : GameState) (hreach : Reachable shuffle rules gs)
    (hstep : Step shuffle gs gs')
    (hact : gs.isStackActive = true) (hact' : gs'.isStackActive = true) :
    gs'.stackType = gs.stackType ∧
    (gs.stackType = some CType.drawTwo ∨ gs.stackType = some CType.wildDrawFour) ∧
    (gs'.stackPenalty = gs.stackPenalty ∨
     (gs.stackType = some CType.drawTwo ∧ gs'.stackPenalty = gs.stackPenalty + 2) ∨
     (gs.stackType = some CType.wildDrawFour ∧ gs'.stackPenalty = gs.stackPenalty + 4)) := by
  have hinv := stackInv_reachable shuffle rules gs hreach
  have hkind : gs.stackType = some CType.drawTwo ∨ gs.stackType = some CType.wildDrawFour := by
    obtain ⟨t, h1, h2, _⟩ := hinv hact
    rcases h2 with h2 | h2
    · exact Or.inl (h2 ▸ h1)
    · exact Or.inr (h2 ▸ h1)
  have hok : StackOk gs gs' := by
    cases hstep with
    | playCard pid ci => exact stack_playCard shuffle gs pid ci hinv
    | drawCard pid te => exact stack_drawCard shuffle gs pid te hinv
    | jumpIn w pid ci => exact stack_jumpIn gs w pid ci hinv
    | selectColor pid c => exact stack_selectColor gs pid c hinv
    | playSharePain pid ci tid => exact stack_playSharePainCard gs pid ci tid hinv
    | timeout => exact stack_handleTurnTimeout shuffle gs hinv
    | animationDone => exact stack_pauseResume gs hinv
  obtain ⟨hty, hpen⟩ := hok.2 hact hact'
  exact ⟨hty, hkind, hpen⟩

/-- The default rule configuration: no variants, seven-card hands. -/
def c3rules : GameRules :=
  { jumpIn := false, shieldCards := false, sharePain := false, startingHandSize := 7 }

/-- Four seated human players with empty pre-deal hands. -/
def c3humans : List Player :=
  [⟨"player_0", "A", false, []⟩, ⟨"player_1", "B", false, []⟩,
   ⟨"player_2", "C", false, []⟩, ⟨"player_3", "D", false, []⟩]

/-- The default round as dealt with the identity shuffle: seven cards each
(seat 0 holds a wildDrawFour at index 0) and a number card flipped. -/
def c3s0 : GameState := (initializeGame idShuffle 5 c3rules c3humans).getD baseState

/-- After seat 0 plays its wildDrawFour: the round waits for a color choice. -/
def c3s1 : GameState := (playCard idShuffle c3s0 "player_0" 0).stateOf c3s0

/-- After seat 0 chooses red: the wildDrawFour's effect fires, opening a
`wildDrawFour` stack of count 4. -/
def c3s2 : GameState := (selectColor c3s1 "player_0" Color.red).stateOf c3s1

set_option maxRecDepth 1000000 in
/-- The claim theorem applied along a concrete reachable trace: releasing the
animation lock while a wildDrawFour stack of count 4 is active keeps the kind
`wildDrawFour` and leaves the count at 4. -/
theorem c3_stack_kind_stable_witness :
    c3s2.isStackActive = true ∧ (pauseResume c3s2).isStackActive = true ∧
    ((pauseResume c3s2).stackType = c3s2.stackType ∧
     (c3s2.stackType = some CType.drawTwo ∨ c3s2.stackType = some CType.wildDrawFour) ∧
     ((pauseResume c3s2).stackPenalty = c3s2.stackPenalty ∨
      (c3s2.stackType = some CType.drawTwo ∧
        (pauseResume c3s2).stackPenalty = c3s2.stackPenalty + 2) ∨
      (c3s2.stackType = some CType.wildDrawFour ∧
        (pauseResume c3s2).stackPenalty = c3s2.stackPenalty + 4))) :=
  ⟨by decide, by decide,
   c3_stack_kind_stable idShuffle c3rules c3s2 (pauseResume c3s2)
     (Reachable.step _ _
       (Reachable.step _ _ (Reachable.base 5 c3humans c3s0 (by decide))
         (Step.playCard c3s0 "player_0" 0))
       (Step.selectColor c3s1 "player_0" Color.red))
     (Step.animationDone c3s2) (by decide) (by decide)⟩
